import Mathlib

/-!
# Conway's Game of Life, 3D (`conwayLife/life.c`)

A shallow embedding of the simulation core of `life.c`: the two global grids
`grid` and `temp`, the rule globals `minNeighbors`, `maxNeighbors`, `alive`,
`density`, and the functions `countLive`, `seed`, `countNeighbors`, `age`,
`setColor` and the argument processing of `main`.

Modelling choices.

* The source fixes `LENGTH = WIDTH = HEIGHT = 50` by `#define`.  The embedding
  takes the three extents as a parameter `Dims`; `stdDims` is the source's
  value.  Every general theorem therefore also holds for the 50 x 50 x 50 grid.
* A `GLint grid[LENGTH][WIDTH][HEIGHT]` array is a function from three `int`
  indices to its cell value; an assignment `grid[i][j][k] = v` is `Grid.set`.
  Only indices inside the extents are ever read or written by the embedded
  code, so the values of the function outside the extents are irrelevant.
* `int` / `GLint` values are mathematical integers; the one arithmetic
  operation on cell values, `grid[i][j][k] + 15`, is reduced to the 32-bit
  two's complement range by `wrapInt32`.
* `for (i = lo; i < hi; i++)` is a left fold over `forRange lo hi`, threading
  the variables the loop body assigns.
* `float density` is a rational number (every finite float is one, and the
  comparisons with `0.0` and `1.0` are exact).
* For index safety, `countNeighborsChecked` and `ageChecked` repeat
  `countNeighbors` and `age` with every array access checked: an access outside
  the extents makes the result `none`.
-/

namespace ConwayLife

/-! ## Data model -/

/-- The three extents `LENGTH`, `WIDTH`, `HEIGHT` of the grids. -/
structure Dims where
  LENGTH : Nat
  WIDTH : Nat
  HEIGHT : Nat

/-- The extents fixed by the source: `#define LENGTH 50` and so on. -/
def stdDims : Dims := ⟨50, 50, 50⟩

/-- A three-dimensional array of `GLint` cells, `grid[i][j][k]`. -/
abbrev Grid := Int → Int → Int → Int

/-- The assignment `g[i][j][k] = v`. -/
def Grid.set (g : Grid) (i j k v : Int) : Grid :=
  fun a b c => if a = i ∧ b = j ∧ c = k then v else g a b c

/-- The zero-initialised global array. -/
def zeroGrid : Grid := fun _ _ _ => 0

/-- Reduction of an integer to the 32-bit two's complement range of `GLint`. -/
def wrapInt32 (x : Int) : Int := (x + 2147483648) % 4294967296 - 2147483648

/-- The values taken by the loop variable of `for (i = lo; i < hi; i++)`. -/
def forRange (lo hi : Int) : List Int :=
  (List.range (hi - lo).toNat).map (fun (n : Nat) => lo + (n : Int))

/-- The triple loop nest
`for (i = 0; i < LENGTH; i++) for (j = 0; j < WIDTH; j++) for (k = 0; k < HEIGHT; k++) body`
threading the state `s` that the body updates. -/
def forCells {σ : Type} (d : Dims) (body : σ → Int → Int → Int → σ) (s : σ) : σ :=
  (forRange 0 d.LENGTH).foldl (fun s i =>
    (forRange 0 d.WIDTH).foldl (fun s j =>
      (forRange 0 d.HEIGHT).foldl (fun s k => body s i j k) s) s) s

/-- The global variables of `life.c` that the simulation core reads or writes. -/
structure State where
  grid : Grid
  temp : Grid
  minNeighbors : Int
  maxNeighbors : Int
  alive : Int
  density : ℚ

/-- The value of the float literal `0.002`: the float nearest to 0.002 is
8589935 / 2^32. -/
def defaultDensity : ℚ := 8589935 / 4294967296

/-- The initial values of the globals: both grids zero, rules 2, 3, 3 and
density 0.002. -/
def initState : State :=
  { grid := zeroGrid, temp := zeroGrid, minNeighbors := 2, maxNeighbors := 3,
    alive := 3, density := defaultDensity }

/-! ## `countLive` -/

/-- The function `countLive`: the number it prints, the count of cells of `grid`
that are non-zero. -/
def countLive (d : Dims) (grid : Grid) : Int :=
  forCells d (fun alive i j k => if grid i j k ≠ 0 then alive + 1 else alive) 0

/-! ## `seed` -/

/-- The function `seed(density)`.  `randomFloat i j k` is the value
`rand()/((float)(RAND_MAX)+1)` drawn in the iteration for cell `(i, j, k)`. -/
def seed (d : Dims) (randomFloat : Int → Int → Int → ℚ) (density : ℚ) (st : State) : State :=
  let density := if density > 1 then 1 else density
  let density := if density < 0 then 0 else density
  forCells d (fun st i j k =>
    if randomFloat i j k < density then { st with grid := st.grid.set i j k 1 }
    else { st with grid := st.grid.set i j k 0 }) st

/-! ## `countNeighbors` -/

/-- The function `countNeighbors(l, w, h)` reading the global `grid`. -/
def countNeighbors (d : Dims) (grid : Grid) (l w h : Int) : Int :=
  (forRange (l - 1) (l + 1 + 1)).foldl (fun (count : Int) (i : Int) =>
    (forRange (w - 1) (w + 1 + 1)).foldl (fun (count : Int) (j : Int) =>
      (forRange (h - 1) (h + 1 + 1)).foldl (fun (count : Int) (k : Int) =>
        if i < 0 ∨ i ≥ d.LENGTH ∨ j < 0 ∨ j ≥ d.WIDTH ∨ k < 0 ∨ k ≥ d.HEIGHT then count
        else if i = l ∧ j = w ∧ k = h then count
        else if grid i j k > 0 then count + 1 else count) count) count) 0

/-! ## `age` -/

/-- The body of the first loop nest of `age` for the cell `(i, j, k)`. -/
def ageCell (d : Dims) (st : State) (i j k : Int) : State :=
  let neighbors := countNeighbors d st.grid i j k
  if neighbors < st.minNeighbors ∨ neighbors > st.maxNeighbors then
    { st with temp := st.temp.set i j k 0 }
  else if neighbors = st.alive ∧ st.grid i j k = 0 then
    { st with temp := st.temp.set i j k 1 }
  else
    { st with temp := st.temp.set i j k (wrapInt32 (st.grid i j k + 15)) }

/-- The body of the second loop nest of `age`: `grid[i][j][k] = temp[i][j][k]`. -/
def copyCell (st : State) (i j k : Int) : State :=
  { st with grid := st.grid.set i j k (st.temp i j k) }

/-- The function `age`: fill `temp` from `grid`, then copy `temp` to `grid`. -/
def age (d : Dims) (st : State) : State :=
  forCells d copyCell (forCells d (ageCell d) st)

/-! ## Argument processing of `main` -/

/-- The block `if (argc == 5) { ... }` of `main`; `a1` is the value of
`atof(argv[1])` as stored in the float `density`, and `a2`, `a3`, `a4` are
`atoi(argv[2])`, `atoi(argv[3])`, `atoi(argv[4])`. -/
def processArgs (argc : Nat) (a1 : ℚ) (a2 a3 a4 : Int) (st : State) : State :=
  if argc = 5 then
    let st := { st with density := a1 }
    let st := { st with density := if st.density > 1 then 1 else st.density }
    let st := { st with density := if st.density < 0 then 0 else st.density }
    let st := { st with minNeighbors := a2 }
    let st := { st with minNeighbors := if st.minNeighbors < 0 then 0 else st.minNeighbors }
    let st := { st with maxNeighbors := a3 }
    let st := { st with maxNeighbors := if st.maxNeighbors > 26 then 26 else st.maxNeighbors }
    let st := { st with alive := a4 }
    let st := { st with alive := if st.alive < 0 then 0 else st.alive }
    let st := { st with alive := if st.alive > 26 then 26 else st.alive }
    st
  else st

/-! ## Specification-side notions -/

/-- The cell `(i, j, k)` lies inside the grid on all three axes. -/
def inGrid (d : Dims) (i j k : Int) : Prop :=
  0 ≤ i ∧ i < d.LENGTH ∧ 0 ≤ j ∧ j < d.WIDTH ∧ 0 ≤ k ∧ k < d.HEIGHT

instance (d : Dims) (i j k : Int) : Decidable (inGrid d i j k) := by
  unfold inGrid; infer_instance

/-- The number of offsets in `{-1,0,1}^3` other than `(0,0,0)` whose target
cell lies inside the grid and holds a value greater than zero. -/
def liveNeighborOffsets (d : Dims) (grid : Grid) (l w h : Int) : Nat :=
  ((Finset.Icc (-1 : Int) 1 ×ˢ Finset.Icc (-1 : Int) 1 ×ˢ Finset.Icc (-1 : Int) 1).filter
    (fun o => o ≠ (0, 0, 0) ∧ inGrid d (l + o.1) (w + o.2.1) (h + o.2.2) ∧
      grid (l + o.1) (w + o.2.1) (h + o.2.2) > 0)).card

/-- The number of cells of the grid whose value is greater than zero. -/
def liveCells (d : Dims) (grid : Grid) : Nat :=
  ((Finset.range d.LENGTH ×ˢ Finset.range d.WIDTH ×ˢ Finset.range d.HEIGHT).filter
    (fun c => grid c.1 c.2.1 c.2.2 > 0)).card

/-- The contribution of the position `(i, j, k)` to `countNeighbors(l, w, h)`. -/
def neighborTerm (d : Dims) (grid : Grid) (l w h i j k : Int) : Int :=
  if inGrid d i j k ∧ ¬(i = l ∧ j = w ∧ k = h) ∧ grid i j k > 0 then 1 else 0

/-- The rule globals of two states agree. -/
def sameRules (s t : State) : Prop :=
  s.minNeighbors = t.minNeighbors ∧ s.maxNeighbors = t.maxNeighbors ∧ s.alive = t.alive ∧
    s.density = t.density

/-- The transition rule of one cell, evaluated for that cell alone: the value
the three branches of the loop body of `age` select, as a function of the rule
globals, the live-neighbour count `neighbors` and the cell value `cell`. -/
def cellRule (minNeighbors maxNeighbors alive neighbors cell : Int) : Int :=
  if neighbors < minNeighbors ∨ neighbors > maxNeighbors then 0
  else if neighbors = alive ∧ cell = 0 then 1
  else wrapInt32 (cell + 15)

/-- The transition rule of the cell `(i, j, k)` evaluated on the grid `g` with
the rule globals of `st`. -/
def nextValue (d : Dims) (st : State) (g : Grid) (i j k : Int) : Int :=
  cellRule st.minNeighbors st.maxNeighbors st.alive (countNeighbors d g i j k) (g i j k)

/-- The number of cells of the grid whose value is not zero. -/
def nonzeroCells (d : Dims) (grid : Grid) : Nat :=
  ((Finset.range d.LENGTH ×ˢ Finset.range d.WIDTH ×ˢ Finset.range d.HEIGHT).filter
    (fun c => grid c.1 c.2.1 c.2.2 ≠ 0)).card

/-! ## Concrete inputs -/

/-- A grid in which every cell holds 1. -/
def allAlive : Grid := fun _ _ _ => 1

/-- The grid in which exactly the listed cells are alive, with value 1. -/
def gridOf (live : List (Int × Int × Int)) : Grid :=
  fun i j k => if (i, j, k) ∈ live then 1 else 0

/-- A 2 x 2 x 2 grid. -/
def cube2 : Dims := ⟨2, 2, 2⟩

/-- A 3 x 3 x 3 grid. -/
def cube3 : Dims := ⟨3, 3, 3⟩

/-- The default rules (2, 3, 3) with every cell alive. -/
def crowdedState : State := { initState with grid := allAlive }

/-- The default rules with three live cells in the corner of the grid. -/
def cornerState : State := { initState with grid := gridOf [(0, 0, 0), (0, 0, 1), (0, 1, 0)] }

/-- The default rules with two live cells in the corner of the grid. -/
def pairState : State := { initState with grid := gridOf [(0, 0, 0), (0, 0, 1)] }

/-- The state after `main` processed the arguments `0.002 5 26 3`, with three
live cells in the corner of the grid. -/
def narrowState : State := processArgs 5 defaultDensity 5 26 3 cornerState

/-- The rule globals lie in the ranges the argument processing of `main` clamps to. -/
def clampedRules (st : State) : Prop :=
  0 ≤ st.minNeighbors ∧ st.maxNeighbors ≤ 26 ∧ 0 ≤ st.alive ∧ st.alive ≤ 26 ∧
    0 ≤ st.density ∧ st.density ≤ 1

instance (st : State) : Decidable (clampedRules st) := by
  unfold clampedRules; infer_instance

/-- The state after `main` processed the arguments `0.002 2 3 3`, with three
live cells in the corner of the grid. -/
def classicState : State := processArgs 5 defaultDensity 2 3 3 cornerState

/-! ## Runs of the program: definitions -/

/-- The two calls that change the grid: `seed(density)` with the draws of that
call, and `age()`. -/
inductive Op where
  | seed (randomFloat : Int → Int → Int → ℚ)
  | age

/-- The effect of one call on the globals; `seed` is called with the global
`density`, as `main` and `specialKeys` do. -/
def applyOp (d : Dims) (st : State) : Op → State
  | Op.seed randomFloat => seed d randomFloat st.density st
  | Op.age => age d st

/-- The globals after a sequence of calls. -/
def run (d : Dims) (ops : List Op) (st : State) : State :=
  ops.foldl (applyOp d) st

/-- The number of `age()` calls that follow the last `seed()` call of a
sequence of calls, counted on top of `n` calls made before the sequence when
it holds no `seed()` call. -/
def agesAfterSeed (n : Nat) : List Op → Nat
  | [] => n
  | Op.age :: ops => agesAfterSeed (n + 1) ops
  | Op.seed _ :: ops => agesAfterSeed 0 ops

/-- The number of `age()` calls that follow the last `seed()` call of a
sequence of calls; all its `age()` calls when it holds no `seed()` call. -/
def agesSinceSeed (ops : List Op) : Nat := agesAfterSeed 0 ops

/-- Every cell of the grid holds a value between 0 and `1 + 15 * m`. -/
def cellsBounded (d : Dims) (g : Grid) (m : Nat) : Prop :=
  ∀ i j k, inGrid d i j k → 0 ≤ g i j k ∧ g i j k ≤ 1 + 15 * (m : Int)

/-- The state after `main` processed the arguments `1.0 0 26 3`. -/
def fullState : State := processArgs 5 1 0 26 3 initState

/-- One `seed` call in which every draw is 0.5, then 143165577 `age` calls. -/
def longRun : List Op := Op.seed (fun _ _ _ => 1 / 2) :: List.replicate 143165577 Op.age

/-- One `seed` call in which every draw is 0.5, then two `age` calls. -/
def shortRun : List Op := [Op.seed (fun _ _ _ => 1 / 2), Op.age, Op.age]

/-- The calls of `longRun` followed by those of `shortRun`: 143165579 `age`
calls in all, two of them after the last `seed` call. -/
def resumedRun : List Op := longRun ++ shortRun

/-! ## `setColor` -/

/-- The function `setColor(c)`: the three arguments it passes to `glColor3f`.
`c/255` is the integer quotient of C (truncating), converted to a float; the
values that occur are integers, so the floats are exact. -/
def setColor (c : Int) : ℚ × ℚ × ℚ :=
  let c := if c ≥ 255 then 255 else c
  (((Int.tdiv c 255 : Int) : ℚ), 1 - ((Int.tdiv c 255 : Int) : ℚ), 0)

/-! ## Further concrete inputs -/

/-- The state after `main` processed the arguments `0.002 40 -5 3`. -/
def wideState : State := processArgs 5 defaultDensity 40 (-5) 3 initState

/-- The 7 positions `(i, j, k)` in `{0,1}^3` other than `(0,0,0)`. -/
def cornerPositions : Finset (Int × Int × Int) :=
  (({0, 1} : Finset Int) ×ˢ ({0, 1} : Finset Int) ×ˢ ({0, 1} : Finset Int)).filter
    (fun p => p ≠ (0, 0, 0))

/-- The number of live cells among the 7 positions of `cornerPositions`. -/
def liveCornerPositions (grid : Grid) : Nat :=
  (cornerPositions.filter (fun p => grid p.1 p.2.1 p.2.2 > 0)).card

/-- A cube of side `N`. -/
def cube (N : Nat) : Dims := ⟨N, N, N⟩

/-- The all-alive 3 x 3 x 3 grid with the three opposite faces (a coordinate
equal to 2) cleared. -/
def facesCleared : Grid := fun i j k => if i = 2 ∨ j = 2 ∨ k = 2 then 0 else 1

/-- Every cell of the grid holds a value in `[0, 2^31 - 15)`. -/
def cellsExact (d : Dims) (g : Grid) : Prop :=
  ∀ i j k, inGrid d i j k → 0 ≤ g i j k ∧ g i j k < 2147483648 - 15

/-- Two grids have the same live/dead pattern. -/
def samePattern (d : Dims) (g1 g2 : Grid) : Prop :=
  ∀ i j k, inGrid d i j k → (g1 i j k > 0 ↔ g2 i j k > 0)

/-- The default rules with the three live corner cells of `cornerState`, the
cell `(0, 0, 0)` holding the value 2147483641 = 1 + 15 * 143165576 of a cell
that survived 143165576 generations. -/
def agedState : State :=
  { initState with
    grid := fun i j k =>
      if i = 0 ∧ j = 0 ∧ k = 0 then 2147483641 else gridOf [(0, 0, 1), (0, 1, 0)] i j k }

/-- The default rules with the three live corner cells of `cornerState`, each
holding the value 16. -/
def olderState : State :=
  { initState with grid := fun i j k => 16 * gridOf [(0, 0, 0), (0, 0, 1), (0, 1, 0)] i j k }

/-! ## Checked indexing -/

/-- A read `g[i][j][k]` that fails (`none`) when an index is out of range. -/
def readCell (d : Dims) (g : Grid) (i j k : Int) : Option Int :=
  if inGrid d i j k then some (g i j k) else none

/-- An assignment `g[i][j][k] = v` that fails (`none`) when an index is out of
range. -/
def writeCell (d : Dims) (g : Grid) (i j k v : Int) : Option Grid :=
  if inGrid d i j k then some (g.set i j k v) else none

/-- The triple loop nest of `forCells` with a body that may fail. -/
def forCellsM {σ : Type} (d : Dims) (body : σ → Int → Int → Int → Option σ) (s : σ) :
    Option σ :=
  (forRange 0 d.LENGTH).foldlM (fun s i =>
    (forRange 0 d.WIDTH).foldlM (fun s j =>
      (forRange 0 d.HEIGHT).foldlM (fun s k => body s i j k) s) s) s

/-- The function `countNeighbors(l, w, h)` with every read of `grid` checked. -/
def countNeighborsChecked (d : Dims) (grid : Grid) (l w h : Int) : Option Int :=
  (forRange (l - 1) (l + 1 + 1)).foldlM (fun (count : Int) (i : Int) =>
    (forRange (w - 1) (w + 1 + 1)).foldlM (fun (count : Int) (j : Int) =>
      (forRange (h - 1) (h + 1 + 1)).foldlM (fun (count : Int) (k : Int) =>
        if i < 0 ∨ i ≥ d.LENGTH ∨ j < 0 ∨ j ≥ d.WIDTH ∨ k < 0 ∨ k ≥ d.HEIGHT then some count
        else if i = l ∧ j = w ∧ k = h then some count
        else (readCell d grid i j k).bind fun v =>
          if v > 0 then some (count + 1) else some count) count) count) 0

/-- The body of the first loop nest of `age` with every read of `grid` and
every assignment to `temp` checked.  The test `grid[i][j][k] == 0` is reached
only when `neighbors == alive` holds. -/
def ageCellChecked (d : Dims) (st : State) (i j k : Int) : Option State :=
  (countNeighborsChecked d st.grid i j k).bind fun neighbors =>
    if neighbors < st.minNeighbors ∨ neighbors > st.maxNeighbors then
      (writeCell d st.temp i j k 0).map fun t => { st with temp := t }
    else
      (if neighbors = st.alive then (readCell d st.grid i j k).map fun v => decide (v = 0)
        else some false).bind fun born =>
        if born = true then (writeCell d st.temp i j k 1).map fun t => { st with temp := t }
        else (readCell d st.grid i j k).bind fun v =>
          (writeCell d st.temp i j k (wrapInt32 (v + 15))).map fun t => { st with temp := t }

/-- The body of the second loop nest of `age` with the read of `temp` and the
assignment to `grid` checked. -/
def copyCellChecked (d : Dims) (st : State) (i j k : Int) : Option State :=
  (readCell d st.temp i j k).bind fun v =>
    (writeCell d st.grid i j k v).map fun g => { st with grid := g }

/-- The function `age` with every array access checked. -/
def ageChecked (d : Dims) (st : State) : Option State :=
  (forCellsM d (ageCellChecked d) st).bind (forCellsM d (copyCellChecked d))

/-- The 2 x 2 x 2 all-alive grid under rules with `minNeighbors` 5 above
`maxNeighbors` 2. -/
def crossedState : State := { crowdedState with minNeighbors := 5, maxNeighbors := 2 }

/-! ## Loops -/

theorem forRange_three (x : Int) : forRange (x - 1) (x + 1 + 1) = [x - 1, x, x + 1] := by
  have h : (x + 1 + 1 - (x - 1)).toNat = 3 := by omega
  simp [forRange, h, List.range_succ]
  omega

theorem neighborStep_eq (d : Dims) (grid : Grid) (l w h i j k count : Int) :
    (if i < 0 ∨ i ≥ d.LENGTH ∨ j < 0 ∨ j ≥ d.WIDTH ∨ k < 0 ∨ k ≥ d.HEIGHT then count
      else if i = l ∧ j = w ∧ k = h then count
      else if grid i j k > 0 then count + 1 else count)
    = count + neighborTerm d grid l w h i j k := by
  unfold neighborTerm inGrid
  split_ifs <;> omega

theorem countNeighbors_eq_sum (d : Dims) (grid : Grid) (l w h : Int) :
    countNeighbors d grid l w h =
      (([l - 1, l, l + 1].map fun i => ([w - 1, w, w + 1].map fun j =>
        ([h - 1, h, h + 1].map fun k => neighborTerm d grid l w h i j k).sum).sum).sum) := by
  unfold countNeighbors
  simp only [neighborStep_eq, forRange_three, List.foldl_cons, List.foldl_nil, List.map_cons,
    List.map_nil, List.sum_cons, List.sum_nil]
  ring

theorem sum_Icc_neg_one_one (f : Int → Nat) :
    (∑ x ∈ Finset.Icc (-1 : Int) 1, f x) = f (-1) + f 0 + f 1 := by
  have hI : Finset.Icc (-1 : Int) 1 = {-1, 0, 1} := by decide
  rw [hI, Finset.sum_insert (by decide), Finset.sum_insert (by decide), Finset.sum_singleton]
  ring

theorem liveNeighborOffsets_eq_sum (d : Dims) (grid : Grid) (l w h : Int) :
    (liveNeighborOffsets d grid l w h : Int) =
      (([l - 1, l, l + 1].map fun i => ([w - 1, w, w + 1].map fun j =>
        ([h - 1, h, h + 1].map fun k => neighborTerm d grid l w h i j k).sum).sum).sum) := by
  unfold liveNeighborOffsets
  rw [Finset.card_filter]
  simp only [Finset.sum_product, sum_Icc_neg_one_one]
  simp [neighborTerm, sub_eq_add_neg]
  ring

theorem liveNeighborOffsets_le (d : Dims) (grid : Grid) (l w h : Int) :
    liveNeighborOffsets d grid l w h ≤ 26 := by
  have hc : ((Finset.Icc (-1 : Int) 1 ×ˢ Finset.Icc (-1 : Int) 1 ×ˢ Finset.Icc (-1 : Int) 1).filter
      (fun o => o ≠ (0, 0, 0))).card = 26 := by decide
  rw [← hc]
  unfold liveNeighborOffsets
  apply Finset.card_le_card
  intro o ho
  rw [Finset.mem_filter] at ho ⊢
  exact ⟨ho.1, ho.2.1⟩

theorem countNeighbors_eq_offsets (d : Dims) (grid : Grid) (l w h : Int) :
    countNeighbors d grid l w h = (liveNeighborOffsets d grid l w h : Int) := by
  rw [countNeighbors_eq_sum, liveNeighborOffsets_eq_sum]

theorem countNeighbors_nonneg (d : Dims) (grid : Grid) (l w h : Int) :
    0 ≤ countNeighbors d grid l w h := by
  rw [countNeighbors_eq_offsets]; exact Int.ofNat_nonneg _

theorem countNeighbors_le (d : Dims) (grid : Grid) (l w h : Int) :
    countNeighbors d grid l w h ≤ 26 := by
  rw [countNeighbors_eq_offsets]; exact_mod_cast liveNeighborOffsets_le d grid l w h

/-! ## The loop rule -/

theorem foldl_range_inv {σ : Type} (body : σ → Int → σ) (lo : Int) (P : Int → σ → Prop)
    (s0 : σ) (n : Nat) (h0 : P lo s0)
    (hstep : ∀ i s, lo ≤ i → i < lo + n → P i s → P (i + 1) (body s i)) :
    P (lo + n) (((List.range n).map (fun m : Nat => lo + (m : Int))).foldl body s0) := by
  induction n with
  | zero => simpa using h0
  | succ n ih =>
    rw [List.range_succ, List.map_append, List.foldl_append]
    simp only [List.map_cons, List.map_nil, List.foldl_cons, List.foldl_nil]
    have h1 := ih (fun i s h1 h2 hp => hstep i s h1 (by push_cast; omega) hp)
    have h2 := hstep (lo + n) _ (by omega) (by push_cast; omega) h1
    rw [Nat.cast_succ, ← add_assoc]
    exact h2

/-- Hoare-style rule for `for (i = lo; i < hi; i++)`: an invariant `P i s` of the
loop variable and the state, established at `lo` and preserved by the body,
holds at `hi` when the loop exits. -/
theorem foldl_forRange_inv {σ : Type} (body : σ → Int → σ) (lo hi : Int)
    (P : Int → σ → Prop) (s0 : σ) (hle : lo ≤ hi) (h0 : P lo s0)
    (hstep : ∀ i s, lo ≤ i → i < hi → P i s → P (i + 1) (body s i)) :
    P hi ((forRange lo hi).foldl body s0) := by
  have hn : hi = lo + ((hi - lo).toNat : Int) := by omega
  have h := foldl_range_inv body lo P s0 (hi - lo).toNat h0
    (fun i s h1 h2 hp => hstep i s h1 (by omega) hp)
  rw [← hn] at h
  exact h

/-- A loop nest over all cells whose body assigns `val i j k` to the cell
`(i, j, k)` of one array (`arr`) and keeps the invariant `I`, leaves that array
holding `val` on every cell of the grid, and unchanged elsewhere. -/
theorem forCells_write {σ : Type} (d : Dims) (body : σ → Int → Int → Int → σ)
    (arr : σ → Grid) (I : σ → Prop) (val : Int → Int → Int → Int)
    (hbody : ∀ s i j k, inGrid d i j k → I s →
      I (body s i j k) ∧ arr (body s i j k) = (arr s).set i j k (val i j k))
    (s0 : σ) (h0 : I s0) :
    I (forCells d body s0) ∧
      ∀ a b c, arr (forCells d body s0) a b c =
        if inGrid d a b c then val a b c else arr s0 a b c := by
  unfold forCells
  have hO := foldl_forRange_inv
    (fun s i => (forRange 0 d.WIDTH).foldl (fun s j =>
      (forRange 0 d.HEIGHT).foldl (fun s k => body s i j k) s) s) 0 d.LENGTH
    (fun i s => I s ∧ ∀ a b c, arr s a b c =
      if (0 ≤ a ∧ a < i) ∧ (0 ≤ b ∧ b < d.WIDTH) ∧ (0 ≤ c ∧ c < d.HEIGHT) then val a b c
      else arr s0 a b c) s0 (by omega) ⟨h0, fun a b c => by rw [if_neg]; omega⟩ ?_
  · refine ⟨hO.1, fun a b c => ?_⟩
    rw [hO.2 a b c]
    unfold inGrid
    split_ifs <;> first | rfl | (exfalso; omega)
  intro i s1 hi0 hi1 hs1
  have hM := foldl_forRange_inv
    (fun s j => (forRange 0 d.HEIGHT).foldl (fun s k => body s i j k) s) 0 d.WIDTH
    (fun j s => I s ∧ ∀ a b c, arr s a b c =
      if a = i ∧ (0 ≤ b ∧ b < j) ∧ (0 ≤ c ∧ c < d.HEIGHT) then val a b c
      else arr s1 a b c) s1 (by omega) ⟨hs1.1, fun a b c => by rw [if_neg]; omega⟩ ?_
  · refine ⟨hM.1, fun a b c => ?_⟩
    rw [hM.2 a b c, hs1.2 a b c]
    split_ifs <;> first | rfl | (exfalso; omega)
  intro j s2 hj0 hj1 hs2
  have hI := foldl_forRange_inv (fun s k => body s i j k) 0 d.HEIGHT
    (fun k s => I s ∧ ∀ a b c, arr s a b c =
      if a = i ∧ b = j ∧ (0 ≤ c ∧ c < k) then val a b c
      else arr s2 a b c) s2 (by omega) ⟨hs2.1, fun a b c => by rw [if_neg]; omega⟩ ?_
  · refine ⟨hI.1, fun a b c => ?_⟩
    rw [hI.2 a b c, hs2.2 a b c]
    split_ifs <;> first | rfl | (exfalso; omega)
  intro k s3 hk0 hk1 hs3
  have hb := hbody s3 i j k ⟨hi0, hi1, hj0, hj1, hk0, hk1⟩ hs3.1
  refine ⟨hb.1, fun a b c => ?_⟩
  rw [hb.2]
  unfold Grid.set
  rw [hs3.2 a b c]
  split_ifs <;> first | rfl | (exfalso; omega) | (rename_i h1 h2; rw [h1.1, h1.2.1, h1.2.2])

/-! ## The two loop nests of `age` -/

/-- Each branch of the loop body of `age` assigns to `temp[i][j][k]` only; the
value assigned is `cellRule` of the neighbour count and the cell value. -/
theorem ageCell_eq (d : Dims) (st : State) (i j k : Int) :
    ageCell d st i j k =
      { st with
        temp := st.temp.set i j k
          (cellRule st.minNeighbors st.maxNeighbors st.alive (countNeighbors d st.grid i j k)
            (st.grid i j k)) } := by
  simp only [ageCell, cellRule]
  split_ifs <;> rfl

theorem ageFill_spec (d : Dims) (st : State) :
    ((forCells d (ageCell d) st).grid = st.grid ∧ sameRules (forCells d (ageCell d) st) st) ∧
      ∀ a b c, (forCells d (ageCell d) st).temp a b c =
        if inGrid d a b c then nextValue d st st.grid a b c else st.temp a b c := by
  refine forCells_write d (ageCell d) State.temp (fun s => s.grid = st.grid ∧ sameRules s st)
    (nextValue d st st.grid) ?_ st ⟨rfl, rfl, rfl, rfl, rfl⟩
  intro s i j k _ hs
  obtain ⟨hg, h1, h2, h3, h4⟩ := hs
  rw [ageCell_eq]
  refine ⟨⟨hg, h1, h2, h3, h4⟩, ?_⟩
  simp only [nextValue, hg, h1, h2, h3]

theorem ageCopy_spec (d : Dims) (st : State) :
    ((forCells d copyCell st).temp = st.temp ∧ sameRules (forCells d copyCell st) st) ∧
      ∀ a b c, (forCells d copyCell st).grid a b c =
        if inGrid d a b c then st.temp a b c else st.grid a b c := by
  refine forCells_write d copyCell State.grid (fun s => s.temp = st.temp ∧ sameRules s st)
    st.temp ?_ st ⟨rfl, rfl, rfl, rfl, rfl⟩
  intro s i j k _ hs
  obtain ⟨hg, h1, h2, h3, h4⟩ := hs
  refine ⟨⟨hg, h1, h2, h3, h4⟩, ?_⟩
  simp only [copyCell, hg]

theorem age_grid (d : Dims) (st : State) (i j k : Int) (hc : inGrid d i j k) :
    (age d st).grid i j k = nextValue d st st.grid i j k := by
  unfold age
  rw [(ageCopy_spec d _).2 i j k, if_pos hc, (ageFill_spec d st).2 i j k, if_pos hc]

theorem age_grid_outside (d : Dims) (st : State) (i j k : Int) (hc : ¬inGrid d i j k) :
    (age d st).grid i j k = st.grid i j k := by
  unfold age
  rw [(ageCopy_spec d _).2 i j k, if_neg hc, (ageFill_spec d st).1.1]

theorem age_sameRules (d : Dims) (st : State) : sameRules (age d st) st := by
  unfold age
  obtain ⟨h1, h2, h3, h4⟩ := (ageCopy_spec d (forCells d (ageCell d) st)).1.2
  obtain ⟨g1, g2, g3, g4⟩ := (ageFill_spec d st).1.2
  exact ⟨h1.trans g1, h2.trans g2, h3.trans g3, h4.trans g4⟩

/-! ## Crowded grids -/

theorem neighborTerm_nonneg (d : Dims) (grid : Grid) (l w h i j k : Int) :
    0 ≤ neighborTerm d grid l w h i j k := by
  unfold neighborTerm; split_ifs <;> omega

theorem neighborTerm_eq_one (d : Dims) (grid : Grid) (l w h i j k : Int)
    (hin : inGrid d i j k) (hne : i ≠ l ∨ j ≠ w ∨ k ≠ h) (hpos : grid i j k > 0) :
    neighborTerm d grid l w h i j k = 1 := by
  unfold neighborTerm
  rw [if_pos]
  refine ⟨hin, ?_, hpos⟩
  omega

theorem exists_adjacent (x : Int) (n : Nat) (h0 : 0 ≤ x) (h1 : x < n) (h2 : 2 ≤ n) :
    ∃ y : Int, (y = x - 1 ∨ y = x + 1) ∧ 0 ≤ y ∧ y < n := by
  by_cases h : x + 1 < n
  · exact ⟨x + 1, Or.inr rfl, by omega, h⟩
  · exact ⟨x - 1, Or.inl rfl, by omega, by omega⟩

theorem countNeighbors_ge_seven (d : Dims) (grid : Grid) (l w h : Int)
    (hL : 2 ≤ d.LENGTH) (hW : 2 ≤ d.WIDTH) (hH : 2 ≤ d.HEIGHT)
    (halive : ∀ i j k, inGrid d i j k → grid i j k > 0) (hc : inGrid d l w h) :
    7 ≤ countNeighbors d grid l w h := by
  obtain ⟨l0, l1, w0, w1, h0, h1⟩ := hc
  obtain ⟨i, hi, i0, i1⟩ := exists_adjacent l d.LENGTH l0 l1 hL
  obtain ⟨j, hj, j0, j1⟩ := exists_adjacent w d.WIDTH w0 w1 hW
  obtain ⟨k, hk, k0, k1⟩ := exists_adjacent h d.HEIGHT h0 h1 hH
  have hnn := neighborTerm_nonneg d grid l w h
  have hone : ∀ a b c, inGrid d a b c → (a ≠ l ∨ b ≠ w ∨ c ≠ h) →
      neighborTerm d grid l w h a b c = 1 :=
    fun a b c hin hne => neighborTerm_eq_one d grid l w h a b c hin hne (halive a b c hin)
  have e1 := hone i w h ⟨i0, i1, w0, w1, h0, h1⟩ (by omega)
  have e2 := hone l j h ⟨l0, l1, j0, j1, h0, h1⟩ (by omega)
  have e3 := hone l w k ⟨l0, l1, w0, w1, k0, k1⟩ (by omega)
  have e4 := hone i j h ⟨i0, i1, j0, j1, h0, h1⟩ (by omega)
  have e5 := hone i w k ⟨i0, i1, w0, w1, k0, k1⟩ (by omega)
  have e6 := hone l j k ⟨l0, l1, j0, j1, k0, k1⟩ (by omega)
  have e7 := hone i j k ⟨i0, i1, j0, j1, k0, k1⟩ (by omega)
  rw [countNeighbors_eq_sum]
  simp only [List.map_cons, List.map_nil, List.sum_cons, List.sum_nil]
  rcases hi with hi | hi <;> rcases hj with hj | hj <;> rcases hk with hk | hk <;>
    subst hi <;> subst hj <;> subst hk <;>
    linarith [hnn (l - 1) (w - 1) (h - 1), hnn (l - 1) (w - 1) (h), hnn (l - 1) (w - 1) (h + 1), hnn (l - 1) (w) (h - 1), hnn (l - 1) (w) (h), hnn (l - 1) (w) (h + 1), hnn (l - 1) (w + 1) (h - 1), hnn (l - 1) (w + 1) (h), hnn (l - 1) (w + 1) (h + 1), hnn (l) (w - 1) (h - 1), hnn (l) (w - 1) (h), hnn (l) (w - 1) (h + 1), hnn (l) (w) (h - 1), hnn (l) (w) (h), hnn (l) (w) (h + 1), hnn (l) (w + 1) (h - 1), hnn (l) (w + 1) (h), hnn (l) (w + 1) (h + 1), hnn (l + 1) (w - 1) (h - 1), hnn (l + 1) (w - 1) (h), hnn (l + 1) (w - 1) (h + 1), hnn (l + 1) (w) (h - 1), hnn (l + 1) (w) (h), hnn (l + 1) (w) (h + 1), hnn (l + 1) (w + 1) (h - 1), hnn (l + 1) (w + 1) (h), hnn (l + 1) (w + 1) (h + 1)]

/-! ## `countLive` as a count -/

theorem foldl_add_eq_sum {α : Type} (f : α → Int) (xs : List α) (c0 : Int) :
    xs.foldl (fun c x => c + f x) c0 = c0 + (xs.map f).sum := by
  induction xs generalizing c0 with
  | nil => simp
  | cons x xs ih => simp [ih, add_assoc]

theorem forRange_zero_sum (f : Int → Int) (n : Nat) :
    ((forRange 0 n).map f).sum = ∑ a ∈ Finset.range n, f (a : Int) := by
  unfold forRange
  simp only [sub_zero, Int.toNat_ofNat, zero_add, List.map_map]
  induction n with
  | zero => simp
  | succ n ih => simp [List.range_succ, Finset.sum_range_succ, ih]

theorem forCells_add (d : Dims) (f : Int → Int → Int → Int) (c0 : Int) :
    forCells d (fun c i j k => c + f i j k) c0 =
      c0 + ∑ a ∈ Finset.range d.LENGTH, ∑ b ∈ Finset.range d.WIDTH,
        ∑ c ∈ Finset.range d.HEIGHT, f a b c := by
  unfold forCells
  simp only [foldl_add_eq_sum, forRange_zero_sum]

theorem countLive_eq_nonzeroCells (d : Dims) (grid : Grid) :
    countLive d grid = (nonzeroCells d grid : Int) := by
  have hbody : (fun (alive : Int) (i j k : Int) => if grid i j k ≠ 0 then alive + 1 else alive)
      = fun alive i j k => alive + (if grid i j k ≠ 0 then 1 else 0) := by
    funext alive i j k
    split_ifs <;> simp
  unfold countLive nonzeroCells
  rw [hbody, forCells_add, Finset.card_filter]
  simp only [Finset.sum_product, Nat.cast_sum, Nat.cast_ite, Nat.cast_one, Nat.cast_zero, zero_add]

theorem nonzeroCells_eq_liveCells (d : Dims) (grid : Grid)
    (hnn : ∀ i j k, inGrid d i j k → 0 ≤ grid i j k) :
    nonzeroCells d grid = liveCells d grid := by
  unfold nonzeroCells liveCells
  congr 1
  apply Finset.filter_congr
  intro c hc
  simp only [Finset.mem_product, Finset.mem_range] at hc
  have := hnn c.1 c.2.1 c.2.2 ⟨by omega, by omega, by omega, by omega, by omega, by omega⟩
  omega

theorem nonzeroCells_eq_zero (d : Dims) (grid : Grid)
    (hz : ∀ i j k, inGrid d i j k → grid i j k = 0) : nonzeroCells d grid = 0 := by
  unfold nonzeroCells
  rw [Finset.card_eq_zero, Finset.filter_eq_empty_iff]
  intro c hc
  simp only [Finset.mem_product, Finset.mem_range] at hc
  have := hz c.1 c.2.1 c.2.2 ⟨by omega, by omega, by omega, by omega, by omega, by omega⟩
  simp [this]

/-! ## `seed` -/

theorem seed_spec (d : Dims) (rnd : Int → Int → Int → ℚ) (density : ℚ) (st : State) :
    ((seed d rnd density st).temp = st.temp ∧ sameRules (seed d rnd density st) st) ∧
      ∀ a b c, (seed d rnd density st).grid a b c =
        if inGrid d a b c then
          (if rnd a b c < max 0 (min density 1) then 1 else 0)
        else st.grid a b c := by
  have hcl : (if (if density > 1 then 1 else density) < 0 then 0
      else (if density > 1 then 1 else density)) = max 0 (min density 1) := by
    split_ifs with h1 h2 h2
    · linarith
    · rw [min_eq_right (le_of_lt h1), max_eq_right (by norm_num)]
    · rw [min_eq_left (not_lt.mp h1), max_eq_left (le_of_lt h2)]
    · rw [min_eq_left (not_lt.mp h1), max_eq_right (not_lt.mp h2)]
  unfold seed
  simp only [hcl]
  refine forCells_write d _ State.grid (fun s => s.temp = st.temp ∧ sameRules s st)
    (fun a b c => if rnd a b c < max 0 (min density 1) then 1 else 0) ?_ st
    ⟨rfl, rfl, rfl, rfl, rfl⟩
  intro s i j k _ hs
  obtain ⟨hg, h1, h2, h3, h4⟩ := hs
  split_ifs with hr
  · exact ⟨⟨hg, h1, h2, h3, h4⟩, by simp only [if_pos hr]⟩
  · exact ⟨⟨hg, h1, h2, h3, h4⟩, by simp only [if_neg hr]⟩

/-! ## Arithmetic on cell values -/

theorem wrapInt32_add_fifteen (v : Int) (h0 : 0 ≤ v) (h1 : v + 15 < 2147483648) :
    wrapInt32 (v + 15) = v + 15 := by
  unfold wrapInt32; omega

/-! ## The claims -/

/-- C1: for every grid and every cell `(l, w, h)`, in particular every in-grid
cell, `countNeighbors(l, w, h)` equals the number of offsets in `{-1,0,1}^3`
other than `(0,0,0)` whose target lies inside the grid on all three axes and
holds a value greater than zero (positions outside the grid contribute nothing,
there is no wraparound), and the result lies between 0 and 26. -/
theorem countNeighbors_spec (d : Dims) (grid : Grid) (l w h : Int) :
    countNeighbors d grid l w h = (liveNeighborOffsets d grid l w h : Int) ∧
      0 ≤ countNeighbors d grid l w h ∧ countNeighbors d grid l w h ≤ 26 :=
  ⟨countNeighbors_eq_offsets d grid l w h, countNeighbors_nonneg d grid l w h,
    countNeighbors_le d grid l w h⟩

/-- C2 (generation isolation): for every state and every cell of the grid, the
value of the cell after `age` is the transition rule evaluated for that cell
alone on the grid before the step: its old value and its `countNeighbors` in
the old grid.  Neither `temp` nor any value written during the step enters. -/
theorem age_generation_isolation (d : Dims) (st : State) (i j k : Int)
    (hc : inGrid d i j k) :
    (age d st).grid i j k =
      cellRule st.minNeighbors st.maxNeighbors st.alive
        (countNeighbors d st.grid i j k) (st.grid i j k) :=
  age_grid d st i j k hc

/-- Witness of C2: the all-alive 3 x 3 x 3 grid with rules 2, 3; the corner cell
has 7 live neighbours in the old grid and dies. -/
theorem age_generation_isolation_witness :
    inGrid cube3 0 0 0 ∧ (age cube3 crowdedState).grid 0 0 0 =
      cellRule 2 3 3 (countNeighbors cube3 allAlive 0 0 0) 1 ∧
      countNeighbors cube3 allAlive 0 0 0 = 7 ∧ cellRule 2 3 3 7 1 = 0 :=
  ⟨by decide, age_generation_isolation cube3 crowdedState 0 0 0 (by decide), by decide,
    by decide⟩

/-- C3: a cell, live or dead, whose live-neighbour count before the step is
below `minNeighbors` or above `maxNeighbors` has value 0 after `age`, whatever
the birth count `alive` is. -/
theorem age_outside_window (d : Dims) (st : State) (i j k : Int) (hc : inGrid d i j k)
    (hn : countNeighbors d st.grid i j k < st.minNeighbors ∨
      countNeighbors d st.grid i j k > st.maxNeighbors) :
    (age d st).grid i j k = 0 := by
  rw [age_grid d st i j k hc, nextValue, cellRule, if_pos hn]

/-- Witness of C3: the corner of the all-alive 50 x 50 x 50 grid has 7 > 3 live
neighbours. -/
theorem age_outside_window_witness :
    countNeighbors stdDims crowdedState.grid 0 0 0 > crowdedState.maxNeighbors ∧
      (age stdDims crowdedState).grid 0 0 0 = 0 :=
  ⟨by decide, age_outside_window stdDims crowdedState 0 0 0 (by decide) (Or.inr (by decide))⟩

/-- C4: a live cell (value `v > 0`, with `v + 15` representable in 32 bits)
whose live-neighbour count before the step lies in
`[minNeighbors, maxNeighbors]` has value exactly `v + 15` after `age`, also when
the count equals the birth count. -/
theorem age_survivor (d : Dims) (st : State) (i j k : Int) (hc : inGrid d i j k)
    (hv : st.grid i j k > 0) (hov : st.grid i j k + 15 < 2147483648)
    (hmin : st.minNeighbors ≤ countNeighbors d st.grid i j k)
    (hmax : countNeighbors d st.grid i j k ≤ st.maxNeighbors) :
    (age d st).grid i j k = st.grid i j k + 15 := by
  rw [age_grid d st i j k hc, nextValue, cellRule, if_neg (by omega), if_neg (by omega)]
  exact wrapInt32_add_fifteen _ (by omega) hov

/-- Witness of C4: a live corner cell with two live neighbours. -/
theorem age_survivor_witness :
    cornerState.grid 0 0 0 = 1 ∧ countNeighbors stdDims cornerState.grid 0 0 0 = 2 ∧
      (age stdDims cornerState).grid 0 0 0 = 1 + 15 :=
  ⟨by decide, by decide,
    age_survivor stdDims cornerState 0 0 0 (by decide) (by decide) (by decide) (by decide)
      (by decide)⟩

/-- C5: a dead cell (value 0) whose live-neighbour count before the step lies in
`[minNeighbors, maxNeighbors]` and equals the birth count `alive` has value
exactly 1 after `age`. -/
theorem age_birth (d : Dims) (st : State) (i j k : Int) (hc : inGrid d i j k)
    (hdead : st.grid i j k = 0)
    (hmin : st.minNeighbors ≤ countNeighbors d st.grid i j k)
    (hmax : countNeighbors d st.grid i j k ≤ st.maxNeighbors)
    (hbirth : countNeighbors d st.grid i j k = st.alive) :
    (age d st).grid i j k = 1 := by
  rw [age_grid d st i j k hc, nextValue, cellRule, if_neg (by omega), if_pos ⟨hbirth, hdead⟩]

/-- Witness of C5: a dead cell with exactly three live neighbours under the
default rules. -/
theorem age_birth_witness :
    cornerState.grid 1 1 1 = 0 ∧ countNeighbors stdDims cornerState.grid 1 1 1 = 3 ∧
      (age stdDims cornerState).grid 1 1 1 = 1 :=
  ⟨by decide, by decide,
    age_birth stdDims cornerState 1 1 1 (by decide) (by decide) (by decide) (by decide)
      (by decide)⟩

/-- C6, the code at a failing input: under the default rules 2, 3, 3 the dead
cell `(1, 1, 1)` with two live neighbours, a count inside the window and
different from the birth count, does not stay dead: `age` stores `0 + 15` in it. -/
theorem age_dead_cell_in_window :
    pairState.grid 1 1 1 = 0 ∧ countNeighbors stdDims pairState.grid 1 1 1 = 2 ∧
      pairState.alive = 3 ∧ (age stdDims pairState).grid 1 1 1 = 15 := by
  refine ⟨by decide, by decide, by decide, ?_⟩
  rw [age_grid stdDims pairState 1 1 1 (by decide)]
  decide

/-- C7 as stated fails: with the clamped rules 5, 26, 3 a dead cell whose
live-neighbour count is exactly the birth count 3 is below `minNeighbors` and
stays dead. -/
theorem birth_needs_window :
    clampedRules narrowState ∧ narrowState.grid 1 1 1 = 0 ∧
      countNeighbors stdDims narrowState.grid 1 1 1 = narrowState.alive ∧
      (age stdDims narrowState).grid 1 1 1 ≠ 1 := by
  refine ⟨?_, by decide, by decide, ?_⟩
  · simp only [clampedRules, narrowState, processArgs, cornerState, initState, defaultDensity]
    norm_num
  · rw [age_grid stdDims narrowState 1 1 1 (by decide)]
    decide

/-- C7 amended: for every grid and every clamped configuration, a dead cell
whose live-neighbour count before the step is exactly the birth count and lies
within `[minNeighbors, maxNeighbors]` has value 1 after `age`. -/
theorem age_birth_clamped (d : Dims) (st : State) (i j k : Int) (_hcl : clampedRules st)
    (hc : inGrid d i j k) (hdead : st.grid i j k = 0)
    (hbirth : countNeighbors d st.grid i j k = st.alive)
    (hwin : st.minNeighbors ≤ st.alive ∧ st.alive ≤ st.maxNeighbors) :
    (age d st).grid i j k = 1 := by
  rw [age_grid d st i j k hc, nextValue, cellRule, if_neg (by omega), if_pos ⟨hbirth, hdead⟩]

/-- Witness of C7 amended: clamped rules 2, 3, 3 and a dead cell with three live
neighbours. -/
theorem age_birth_clamped_witness :
    clampedRules classicState ∧ classicState.grid 1 1 1 = 0 ∧
      countNeighbors stdDims classicState.grid 1 1 1 = classicState.alive ∧
      (age stdDims classicState).grid 1 1 1 = 1 := by
  have hcl : clampedRules classicState := by
    simp only [clampedRules, classicState, processArgs, cornerState, initState, defaultDensity]
    norm_num
  exact ⟨hcl, by decide, by decide,
    age_birth_clamped stdDims classicState 1 1 1 hcl (by decide) (by decide) (by decide)
      (by decide)⟩

/-- C8 (end to end): in a grid whose three extents are at least 2 and in which
every cell is alive, under rules with `maxNeighbors < 7`, every cell has at
least 7 live neighbours, so after one `age` every cell holds 0 and the census
`countLive` is 0. -/
theorem crowded_grid_dies (d : Dims) (st : State)
    (hL : 2 ≤ d.LENGTH) (hW : 2 ≤ d.WIDTH) (hH : 2 ≤ d.HEIGHT)
    (halive : ∀ i j k, inGrid d i j k → st.grid i j k > 0) (hmax : st.maxNeighbors < 7) :
    (∀ i j k, inGrid d i j k →
      7 ≤ countNeighbors d st.grid i j k ∧ countNeighbors d st.grid i j k > st.maxNeighbors ∧
        (age d st).grid i j k = 0) ∧
      countLive d (age d st).grid = 0 := by
  have hcell : ∀ i j k, inGrid d i j k →
      7 ≤ countNeighbors d st.grid i j k ∧ countNeighbors d st.grid i j k > st.maxNeighbors ∧
        (age d st).grid i j k = 0 := by
    intro i j k hc
    have h7 := countNeighbors_ge_seven d st.grid i j k hL hW hH halive hc
    refine ⟨h7, by omega, ?_⟩
    rw [age_grid d st i j k hc, nextValue, cellRule, if_pos (Or.inr (by omega))]
  refine ⟨hcell, ?_⟩
  rw [countLive_eq_nonzeroCells, nonzeroCells_eq_zero d _ (fun i j k hc => (hcell i j k hc).2.2)]
  rfl

/-- Witness of C8: the 2 x 2 x 2 grid with all 8 cells alive and rules 2, 3, 3;
each cell has exactly 7 live neighbours, every cell dies and the census is 0. -/
theorem crowded_grid_dies_witness :
    (∀ i j k, inGrid cube2 i j k → countNeighbors cube2 crowdedState.grid i j k = 7) ∧
      (∀ i j k, inGrid cube2 i j k → (age cube2 crowdedState).grid i j k = 0) ∧
      countLive cube2 (age cube2 crowdedState).grid = 0 := by
  have h := crowded_grid_dies cube2 crowdedState (by decide) (by decide) (by decide)
    (fun _ _ _ _ => Int.one_pos) (by decide)
  refine ⟨?_, fun i j k hc => (h.1 i j k hc).2.2, h.2⟩
  intro i j k hc
  obtain ⟨i0, i1, j0, j1, k0, k1⟩ := hc
  have hi : i = 0 ∨ i = 1 := by simp only [cube2] at i1; omega
  have hj : j = 0 ∨ j = 1 := by simp only [cube2] at j1; omega
  have hk : k = 0 ∨ k = 1 := by simp only [cube2] at k1; omega
  rcases hi with rfl | rfl <;> rcases hj with rfl | rfl <;> rcases hk with rfl | rfl <;> decide

theorem processArgs_five (b1 : ℚ) (b2 b3 b4 : Int) (s : State) :
    processArgs 5 b1 b2 b3 b4 s =
      { s with density := min (max b1 0) 1, minNeighbors := max b2 0, maxNeighbors := min b3 26,
               alive := min (max b4 0) 26 } := by
  have hmin : (if b2 < 0 then 0 else b2) = max b2 0 := by split_ifs <;> omega
  have hmax : (if b3 > 26 then 26 else b3) = min b3 26 := by split_ifs <;> omega
  have hal : (if (if b4 < 0 then 0 else b4) > 26 then 26 else (if b4 < 0 then 0 else b4))
      = min (max b4 0) 26 := by split_ifs <;> omega
  have hde : (if (if b1 > 1 then 1 else b1) < 0 then 0 else (if b1 > 1 then 1 else b1))
      = min (max b1 0) 1 := by
    split_ifs with h1 h2 h2
    · linarith
    · rw [max_eq_left (by linarith), min_eq_right (le_of_lt h1)]
    · rw [max_eq_right (le_of_lt h2), min_eq_left (by norm_num)]
    · rw [max_eq_left (not_lt.mp h2), min_eq_left (not_lt.mp h1)]
  simp only [processArgs, if_true, hmin, hmax, hal, hde]

/-- C10: for all values `a1` (rational), `a2`, `a3`, `a4` (integers) of the four
command-line arguments, `main` stores `minNeighbors = max(a2, 0)`,
`maxNeighbors = min(a3, 26)`, `alive = min(max(a4, 0), 26)` and
`density = min(max(a1, 0), 1)`; processing the stored values again changes
nothing, and values already in range are stored unchanged. -/
theorem processArgs_clamps (a1 : ℚ) (a2 a3 a4 : Int) (st : State) :
    ((processArgs 5 a1 a2 a3 a4 st).minNeighbors = max a2 0 ∧
      (processArgs 5 a1 a2 a3 a4 st).maxNeighbors = min a3 26 ∧
      (processArgs 5 a1 a2 a3 a4 st).alive = min (max a4 0) 26 ∧
      (processArgs 5 a1 a2 a3 a4 st).density = min (max a1 0) 1) ∧
    processArgs 5 (processArgs 5 a1 a2 a3 a4 st).density
        (processArgs 5 a1 a2 a3 a4 st).minNeighbors (processArgs 5 a1 a2 a3 a4 st).maxNeighbors
        (processArgs 5 a1 a2 a3 a4 st).alive (processArgs 5 a1 a2 a3 a4 st)
      = processArgs 5 a1 a2 a3 a4 st ∧
    ((0 ≤ a2 → (processArgs 5 a1 a2 a3 a4 st).minNeighbors = a2) ∧
      (a3 ≤ 26 → (processArgs 5 a1 a2 a3 a4 st).maxNeighbors = a3) ∧
      (0 ≤ a4 ∧ a4 ≤ 26 → (processArgs 5 a1 a2 a3 a4 st).alive = a4) ∧
      (0 ≤ a1 ∧ a1 ≤ 1 → (processArgs 5 a1 a2 a3 a4 st).density = a1)) := by
  have m1 : (processArgs 5 a1 a2 a3 a4 st).minNeighbors = max a2 0 := by rw [processArgs_five]
  have m2 : (processArgs 5 a1 a2 a3 a4 st).maxNeighbors = min a3 26 := by rw [processArgs_five]
  have m3 : (processArgs 5 a1 a2 a3 a4 st).alive = min (max a4 0) 26 := by
    rw [processArgs_five]
  have m4 : (processArgs 5 a1 a2 a3 a4 st).density = min (max a1 0) 1 := by
    rw [processArgs_five]
  refine ⟨⟨m1, m2, m3, m4⟩, ?_, ?_, ?_, ?_, ?_⟩
  · have e1 : min (max (min (max a1 0) 1) 0) 1 = min (max a1 0) 1 := by
      rw [max_eq_left (le_min (le_max_right _ _) zero_le_one), min_eq_left (min_le_right _ _)]
    have e2 : max (max a2 0) 0 = max a2 0 := by omega
    have e3 : min (min a3 26) 26 = min a3 26 := by omega
    have e4 : min (max (min (max a4 0) 26) 0) 26 = min (max a4 0) 26 := by omega
    rw [m1, m2, m3, m4, processArgs_five, processArgs_five, e1, e2, e3, e4]
  · intro h; rw [m1]; exact max_eq_left h
  · intro h; rw [m2]; exact min_eq_left h
  · intro h; rw [m3]; omega
  · intro h; rw [m4, max_eq_left h.1, min_eq_left h.2]

/-- Witness of C10: density 1.5 gives 1.0, `minNeighbors` -5 gives 0 and
`maxNeighbors` 40 gives 26. -/
theorem processArgs_clamps_witness :
    (processArgs 5 (3 / 2) (-5) 40 3 initState).density = 1 ∧
      (processArgs 5 (3 / 2) (-5) 40 3 initState).minNeighbors = 0 ∧
      (processArgs 5 (3 / 2) (-5) 40 3 initState).maxNeighbors = 26 := by
  obtain ⟨h1, h2, -, h4⟩ := (processArgs_clamps (3 / 2) (-5) 40 3 initState).1
  refine ⟨?_, ?_, ?_⟩
  · rw [h4]; norm_num
  · rw [h1]; decide
  · rw [h2]; decide

/-! ## Runs of the program -/

theorem applyOp_seed (d : Dims) (st : State) (rnd : Int → Int → Int → ℚ) :
    applyOp d st (Op.seed rnd) = seed d rnd st.density st := rfl

theorem run_cons (d : Dims) (op : Op) (ops : List Op) (st : State) :
    run d (op :: ops) st = run d ops (applyOp d st op) := rfl

theorem age_cellsBounded (d : Dims) (st : State) (m : Nat) (h : cellsBounded d st.grid m)
    (hm : m < 143165576) : cellsBounded d (age d st).grid (m + 1) := by
  intro i j k hc
  obtain ⟨h0, h1⟩ := h i j k hc
  rw [age_grid d st i j k hc, nextValue, cellRule]
  push_cast
  split_ifs
  · omega
  · omega
  · rw [wrapInt32_add_fifteen _ h0 (by omega)]; omega

theorem seed_cellsBounded (d : Dims) (rnd : Int → Int → Int → ℚ) (density : ℚ) (st : State)
    (m : Nat) : cellsBounded d (seed d rnd density st).grid m := by
  intro i j k hc
  rw [(seed_spec d rnd density st).2 i j k, if_pos hc]
  split_ifs <;> omega

/-- After a sequence of calls, every cell lies between 0 and 1 plus 15 times
the number of `age()` calls since the last `seed()`, as long as that number is
at most 143165576; what the grid held before the last `seed()` is irrelevant. -/
theorem run_cellsBounded (d : Dims) (ops : List Op) :
    ∀ (st : State) (n : Nat), (n ≤ 143165576 → cellsBounded d st.grid n) →
      agesAfterSeed n ops ≤ 143165576 →
      cellsBounded d (run d ops st).grid (agesAfterSeed n ops) := by
  induction ops with
  | nil => intro st n h hb; exact h hb
  | cons op ops ih =>
    intro st n h hb
    cases op with
    | seed rnd =>
      rw [run_cons, applyOp_seed]
      exact ih (seed d rnd st.density st) 0
        (fun _ => seed_cellsBounded d rnd st.density st 0) hb
    | age =>
      rw [run_cons]
      exact ih (age d st) (n + 1)
        (fun hn => age_cellsBounded d st n (h (by omega)) (by omega)) hb

theorem nonzeroCells_eq_all (d : Dims) (grid : Grid)
    (hnz : ∀ i j k, inGrid d i j k → grid i j k ≠ 0) :
    nonzeroCells d grid = d.LENGTH * d.WIDTH * d.HEIGHT := by
  unfold nonzeroCells
  rw [Finset.filter_true_of_mem, Finset.card_product, Finset.card_product, Finset.card_range,
    Finset.card_range, Finset.card_range, Nat.mul_assoc]
  intro c hc
  simp only [Finset.mem_product, Finset.mem_range] at hc
  exact hnz c.1 c.2.1 c.2.2 ⟨by omega, by omega, by omega, by omega, by omega, by omega⟩

theorem liveCells_eq_zero (d : Dims) (grid : Grid)
    (hz : ∀ i j k, inGrid d i j k → grid i j k ≤ 0) : liveCells d grid = 0 := by
  unfold liveCells
  rw [Finset.card_eq_zero, Finset.filter_eq_empty_iff]
  intro c hc
  simp only [Finset.mem_product, Finset.mem_range] at hc
  have := hz c.1 c.2.1 c.2.2 ⟨by omega, by omega, by omega, by omega, by omega, by omega⟩
  omega

/-- Under rules with `minNeighbors = 0` and `maxNeighbors = 26`, a grid whose
cells all hold the same non-zero value `v` ages to the grid whose cells all
hold `wrapInt32 (v + 15)`. -/
theorem age_uniform (d : Dims) (st : State) (v : Int) (hmin : st.minNeighbors = 0)
    (hmax : st.maxNeighbors = 26) (hv : v ≠ 0) (hall : ∀ i j k, inGrid d i j k → st.grid i j k = v) :
    ∀ i j k, inGrid d i j k → (age d st).grid i j k = wrapInt32 (v + 15) := by
  intro i j k hc
  have h0 := countNeighbors_nonneg d st.grid i j k
  have h1 := countNeighbors_le d st.grid i j k
  rw [age_grid d st i j k hc, nextValue, cellRule, hall i j k hc, hmin, hmax,
    if_neg (by omega), if_neg (fun h => hv h.2)]

theorem run_replicate_age_succ (d : Dims) (m : Nat) (st : State) :
    run d (List.replicate (m + 1) Op.age) st = age d (run d (List.replicate m Op.age) st) := by
  unfold run
  rw [List.replicate_succ', List.foldl_append]
  rfl

theorem run_replicate_age_last (d : Dims) (n m : Nat) (h : n = m + 1) (st : State) :
    run d (List.replicate n Op.age) st = age d (run d (List.replicate m Op.age) st) := by
  subst h
  exact run_replicate_age_succ d m st

theorem run_replicate_age_uniform (d : Dims) (st : State) (hmin : st.minNeighbors = 0)
    (hmax : st.maxNeighbors = 26) (hall : ∀ i j k, inGrid d i j k → st.grid i j k = 1) (m : Nat)
    (hm : m ≤ 143165576) :
    ((run d (List.replicate m Op.age) st).minNeighbors = 0 ∧
      (run d (List.replicate m Op.age) st).maxNeighbors = 26) ∧
      ∀ i j k, inGrid d i j k →
        (run d (List.replicate m Op.age) st).grid i j k = 1 + 15 * (m : Int) := by
  induction m with
  | zero => exact ⟨⟨hmin, hmax⟩, fun i j k hc => (hall i j k hc).trans (by simp)⟩
  | succ m ih =>
    obtain ⟨⟨r1, r2⟩, hcells⟩ := ih (by omega)
    rw [run_replicate_age_succ]
    obtain ⟨s1, s2, -, -⟩ := age_sameRules d (run d (List.replicate m Op.age) st)
    refine ⟨⟨s1.trans r1, s2.trans r2⟩, fun i j k hc => ?_⟩
    rw [age_uniform d _ (1 + 15 * (m : Int)) r1 r2 (by omega) hcells i j k hc,
      wrapInt32_add_fifteen _ (by omega) (by omega)]
    push_cast
    ring

theorem fullState_rules :
    fullState.minNeighbors = 0 ∧ fullState.maxNeighbors = 26 ∧ fullState.density = 1 := by
  refine ⟨by decide, by decide, ?_⟩
  simp only [fullState, processArgs_five]
  norm_num

theorem run_append (d : Dims) (ops1 ops2 : List Op) (st : State) :
    run d (ops1 ++ ops2) st = run d ops2 (run d ops1 st) := by
  unfold run
  rw [List.foldl_append]

theorem applyOp_sameRules (d : Dims) (st : State) (op : Op) : sameRules (applyOp d st op) st := by
  cases op with
  | seed rnd => exact (seed_spec d rnd st.density st).1.2
  | age => exact age_sameRules d st

theorem run_sameRules (d : Dims) (ops : List Op) : ∀ st : State, sameRules (run d ops st) st := by
  induction ops with
  | nil => intro st; exact ⟨rfl, rfl, rfl, rfl⟩
  | cons op ops ih =>
    intro st
    rw [run_cons]
    obtain ⟨h1, h2, h3, h4⟩ := ih (applyOp d st op)
    obtain ⟨g1, g2, g3, g4⟩ := applyOp_sameRules d st op
    exact ⟨h1.trans g1, h2.trans g2, h3.trans g3, h4.trans g4⟩

/-- With density 1 a `seed` call whose draws are all 0.5 makes every cell hold
1, whatever the grid held before. -/
theorem seed_all_alive (d : Dims) (st : State) (hd : st.density = 1) (i j k : Int)
    (hc : inGrid d i j k) : (seed d (fun _ _ _ => 1 / 2) st.density st).grid i j k = 1 := by
  rw [(seed_spec d _ _ st).2 i j k, if_pos hc, hd, if_pos]
  norm_num

theorem seed_all_alive_rules (d : Dims) (st : State) (hmin : st.minNeighbors = 0)
    (hmax : st.maxNeighbors = 26) :
    (seed d (fun _ _ _ => 1 / 2) st.density st).minNeighbors = 0 ∧
      (seed d (fun _ _ _ => 1 / 2) st.density st).maxNeighbors = 26 := by
  obtain ⟨s1, s2, -, -⟩ := (seed_spec d (fun _ _ _ => 1 / 2) st.density st).1.2
  exact ⟨s1.trans hmin, s2.trans hmax⟩

/-- After the calls of `longRun` under the rules of `fullState` every cell of
the 50 x 50 x 50 grid holds -2147483640. -/
theorem longRun_grid (i j k : Int) (hc : inGrid stdDims i j k) :
    (run stdDims longRun fullState).grid i j k = -2147483640 := by
  have hseed := seed_all_alive_rules stdDims fullState fullState_rules.1 fullState_rules.2.1
  have hrun := run_replicate_age_uniform stdDims
    (seed stdDims (fun _ _ _ => 1 / 2) fullState.density fullState) hseed.1 hseed.2
    (seed_all_alive stdDims fullState fullState_rules.2.2) 143165576 (le_refl _)
  have hlast := age_uniform stdDims _ (1 + 15 * ((143165576 : Nat) : Int)) hrun.1.1 hrun.1.2
    (by norm_num) hrun.2
  rw [← run_replicate_age_last stdDims 143165577 143165576 rfl] at hlast
  have hval : wrapInt32 (1 + 15 * ((143165576 : Nat) : Int) + 15) = -2147483640 := by
    unfold wrapInt32; norm_num
  rw [hval] at hlast
  rw [longRun, run_cons, applyOp_seed]
  exact hlast i j k hc

/-- After the calls of `shortRun`, from any state with rules 0, 26 and density
1, every cell of the grid holds 1 + 15 + 15 = 31. -/
theorem shortRun_grid (d : Dims) (st : State) (hmin : st.minNeighbors = 0)
    (hmax : st.maxNeighbors = 26) (hd : st.density = 1) (i j k : Int) (hc : inGrid d i j k) :
    (run d shortRun st).grid i j k = 31 := by
  have hseed := seed_all_alive_rules d st hmin hmax
  have hrun := run_replicate_age_uniform d (seed d (fun _ _ _ => 1 / 2) st.density st)
    hseed.1 hseed.2 (seed_all_alive d st hd) 2 (by decide)
  have e : List.replicate 2 Op.age = [Op.age, Op.age] := rfl
  rw [e] at hrun
  rw [shortRun, run_cons, applyOp_seed, hrun.2 i j k hc]
  norm_num

/-- After the calls of `resumedRun` under the rules of `fullState` every cell of
the 50 x 50 x 50 grid holds 31: the last `seed` call overwrote the negative
values left by `longRun`. -/
theorem resumedRun_grid (i j k : Int) (hc : inGrid stdDims i j k) :
    (run stdDims resumedRun fullState).grid i j k = 31 := by
  obtain ⟨r1, r2, -, r4⟩ := run_sameRules stdDims longRun fullState
  rw [resumedRun, run_append]
  exact shortRun_grid stdDims _ (r1.trans fullState_rules.1) (r2.trans fullState_rules.2.1)
    (r4.trans fullState_rules.2.2) i j k hc

theorem agesAfterSeed_append_seed (ops rest : List Op) (rnd : Int → Int → Int → ℚ) :
    ∀ n : Nat, agesAfterSeed n (ops ++ Op.seed rnd :: rest) = agesAfterSeed 0 rest := by
  induction ops with
  | nil => intro n; rfl
  | cons op ops ih =>
    intro n
    cases op with
    | seed r => exact ih 0
    | age => exact ih (n + 1)

theorem agesSinceSeed_resumedRun : agesSinceSeed resumedRun = 2 := by
  unfold agesSinceSeed resumedRun shortRun
  rw [agesAfterSeed_append_seed]
  rfl

theorem liveCells_eq_all (d : Dims) (grid : Grid)
    (hpos : ∀ i j k, inGrid d i j k → grid i j k > 0) :
    liveCells d grid = d.LENGTH * d.WIDTH * d.HEIGHT := by
  unfold liveCells
  rw [Finset.filter_true_of_mem, Finset.card_product, Finset.card_product, Finset.card_range,
    Finset.card_range, Finset.card_range, Nat.mul_assoc]
  intro c hc
  simp only [Finset.mem_product, Finset.mem_range] at hc
  exact hpos c.1 c.2.1 c.2.2 ⟨by omega, by omega, by omega, by omega, by omega, by omega⟩

/-- C9 as stated fails at long runs: after `main` processed the arguments
`1.0 0 26 3`, one `seed` call makes all 125000 cells alive, every cell survives
each `age` call, and the 143165577th addition of 15 leaves the 32-bit range, so
every cell holds a negative value: `countLive` reports 125000 although no cell
has a value greater than zero. -/
theorem census_overflow :
    countLive stdDims (run stdDims longRun fullState).grid = 125000 ∧
      liveCells stdDims (run stdDims longRun fullState).grid = 0 := by
  constructor
  · rw [countLive_eq_nonzeroCells, nonzeroCells_eq_all stdDims _
      (fun i j k hc => by rw [longRun_grid i j k hc]; decide)]
    rfl
  · exact liveCells_eq_zero stdDims _ (fun i j k hc => by rw [longRun_grid i j k hc]; decide)

/-- C9 amended: starting from a zero grid, after any sequence of `seed` and `age`
calls in which at most 143165576 `age` calls follow the last `seed` call (any
draws, any rules, any number of calls before the last `seed`), the number
computed by `countLive` equals the number of cells whose value is greater than
zero. -/
theorem census_correct (d : Dims) (st : State) (ops : List Op)
    (hz : ∀ i j k, inGrid d i j k → st.grid i j k = 0)
    (hb : agesSinceSeed ops ≤ 143165576) :
    countLive d (run d ops st).grid = (liveCells d (run d ops st).grid : Int) := by
  have h0 : cellsBounded d st.grid 0 := fun i j k hc => by rw [hz i j k hc]; simp
  have h := run_cellsBounded d ops st 0 (fun _ => h0) hb
  rw [countLive_eq_nonzeroCells, nonzeroCells_eq_liveCells d _ (fun i j k hc => (h i j k hc).1)]

/-- Witness of C9 amended: after `main` processed the arguments `1.0 0 26 3`,
the calls of `resumedRun` on the 50 x 50 x 50 grid: 143165579 `age` calls in
all, two of them after the last `seed`; all 125000 cells are alive with value
31 and `countLive` reports 125000. -/
theorem census_correct_witness :
    agesSinceSeed resumedRun = 2 ∧
      liveCells stdDims (run stdDims resumedRun fullState).grid = 125000 ∧
      countLive stdDims (run stdDims resumedRun fullState).grid =
        (liveCells stdDims (run stdDims resumedRun fullState).grid : Int) := by
  refine ⟨agesSinceSeed_resumedRun, ?_, census_correct stdDims fullState resumedRun
    (fun _ _ _ _ => rfl) (by rw [agesSinceSeed_resumedRun]; decide)⟩
  rw [liveCells_eq_all stdDims _ (fun i j k hc => by rw [resumedRun_grid i j k hc]; decide)]
  rfl

/-! ## The range of the rule globals -/

/-- C11 as stated fails: after `main` processed the arguments `0.002 40 -5 3`
the stored `minNeighbors` is 40, above 26, and the stored `maxNeighbors` is -5,
below 0. -/
theorem rules_outside_range :
    wideState.minNeighbors = 40 ∧ ¬(wideState.minNeighbors ≤ 26) ∧
      wideState.maxNeighbors = -5 ∧ ¬(0 ≤ wideState.maxNeighbors) := by
  refine ⟨by decide, by decide, by decide, by decide⟩

/-- C11 amended: for all inputs, after the configuration values are clamped and
stored, `minNeighbors` is at least 0, `maxNeighbors` is at most 26 and the birth
count `alive` lies in the closed range [0, 26]. -/
theorem processArgs_range (a1 : ℚ) (a2 a3 a4 : Int) (st : State) :
    0 ≤ (processArgs 5 a1 a2 a3 a4 st).minNeighbors ∧
      (processArgs 5 a1 a2 a3 a4 st).maxNeighbors ≤ 26 ∧
      0 ≤ (processArgs 5 a1 a2 a3 a4 st).alive ∧ (processArgs 5 a1 a2 a3 a4 st).alive ≤ 26 := by
  rw [processArgs_five]
  refine ⟨le_max_right _ _, min_le_right _ _, ?_, min_le_right _ _⟩
  show 0 ≤ min (max a4 0) 26
  omega

/-! ## Full re-seed -/

/-- C12: with one draw `r` in [0,1) per cell, for every prior state and every
density `d`, after `seed(d)` every cell of the grid holds 1 if its draw is below
`d` clamped to [0,1] and 0 otherwise; the grid does not depend on the prior
grid, every cell is 0 or 1, a density of at most 0 leaves every cell dead and a
density of at least 1 makes every cell alive. -/
theorem seed_full_reseed (d : Dims) (rnd : Int → Int → Int → ℚ) (density : ℚ) (st st2 : State)
    (hr : ∀ i j k, inGrid d i j k → 0 ≤ rnd i j k ∧ rnd i j k < 1) :
    (∀ i j k, inGrid d i j k → (seed d rnd density st).grid i j k =
        if rnd i j k < min (max density 0) 1 then 1 else 0) ∧
      (∀ i j k, inGrid d i j k →
        (seed d rnd density st).grid i j k = (seed d rnd density st2).grid i j k) ∧
      (∀ i j k, inGrid d i j k →
        (seed d rnd density st).grid i j k = 0 ∨ (seed d rnd density st).grid i j k = 1) ∧
      (density ≤ 0 → ∀ i j k, inGrid d i j k → (seed d rnd density st).grid i j k = 0) ∧
      (1 ≤ density → ∀ i j k, inGrid d i j k → (seed d rnd density st).grid i j k = 1) := by
  have hcl : max 0 (min density 1) = min (max density 0) 1 := by
    rcases le_total density 0 with h | h
    · rw [min_eq_left (h.trans zero_le_one), max_eq_left h, max_eq_right h,
        min_eq_left zero_le_one]
    · rw [max_eq_left h, max_eq_right (le_min h zero_le_one)]
  have hcell : ∀ (s : State) i j k, inGrid d i j k → (seed d rnd density s).grid i j k =
      if rnd i j k < min (max density 0) 1 then 1 else 0 := by
    intro s i j k hc
    rw [(seed_spec d rnd density s).2 i j k, if_pos hc, hcl]
  refine ⟨hcell st, fun i j k hc => ?_, fun i j k hc => ?_, fun hd i j k hc => ?_,
    fun hd i j k hc => ?_⟩
  · rw [hcell st i j k hc, hcell st2 i j k hc]
  · rw [hcell st i j k hc]
    split_ifs
    · exact Or.inr rfl
    · exact Or.inl rfl
  · rw [hcell st i j k hc, max_eq_right hd, min_eq_left zero_le_one,
      if_neg (not_lt.mpr (hr i j k hc).1)]
  · rw [hcell st i j k hc, max_eq_left (zero_le_one.trans hd), min_eq_right hd,
      if_pos (hr i j k hc).2]

/-- Witness of C12: every draw is 0.5 and the density is 0.75; the corner cell of
the 50 x 50 x 50 grid becomes alive whatever the prior grid was. -/
theorem seed_full_reseed_witness :
    (seed stdDims (fun _ _ _ => 1 / 2) (3 / 4) cornerState).grid 0 0 1 = 1 ∧
      (seed stdDims (fun _ _ _ => 1 / 2) (3 / 4) initState).grid 0 0 1 = 1 := by
  have h := seed_full_reseed stdDims (fun _ _ _ => 1 / 2) (3 / 4) cornerState initState
    (fun _ _ _ _ => by norm_num)
  have e := h.1 0 0 1 (by decide)
  have e1 : (seed stdDims (fun _ _ _ => 1 / 2) (3 / 4) cornerState).grid 0 0 1 = 1 := by
    rw [e, if_pos]
    norm_num
  exact ⟨e1, (h.2.1 0 0 1 (by decide)).symm.trans e1⟩

/-! ## The empty grid -/

theorem neighborTerm_eq_zero (d : Dims) (grid : Grid) (l w h i j k : Int)
    (hz : ∀ a b c, inGrid d a b c → grid a b c ≤ 0) :
    neighborTerm d grid l w h i j k = 0 := by
  unfold neighborTerm
  rw [if_neg]
  intro hc
  have := hz i j k hc.1
  omega

theorem countNeighbors_eq_zero (d : Dims) (grid : Grid) (l w h : Int)
    (hz : ∀ a b c, inGrid d a b c → grid a b c ≤ 0) :
    countNeighbors d grid l w h = 0 := by
  rw [countNeighbors_eq_sum]
  simp [neighborTerm_eq_zero d grid l w h _ _ _ hz]

theorem age_empty (d : Dims) (st : State) (hmin : 1 ≤ st.minNeighbors)
    (hz : ∀ i j k, inGrid d i j k → st.grid i j k = 0) :
    ∀ i j k, inGrid d i j k → (age d st).grid i j k = 0 := by
  intro i j k hc
  have hn := countNeighbors_eq_zero d st.grid i j k (fun a b c h => le_of_eq (hz a b c h))
  rw [age_grid d st i j k hc, nextValue, cellRule, hn, if_pos (Or.inl (by omega))]

/-- C17: under rules with `minNeighbors` at least 1 (in particular the defaults
2, 3, 3) the all-dead grid is a fixed point of `age`: after any number of `age`
calls every cell still holds 0 and the census `countLive` is 0. -/
theorem empty_grid_fixed_point (d : Dims) (st : State) (m : Nat) (hmin : 1 ≤ st.minNeighbors)
    (hz : ∀ i j k, inGrid d i j k → st.grid i j k = 0) :
    (∀ i j k, inGrid d i j k → (run d (List.replicate m Op.age) st).grid i j k = 0) ∧
      countLive d (run d (List.replicate m Op.age) st).grid = 0 := by
  have hall : 1 ≤ (run d (List.replicate m Op.age) st).minNeighbors ∧
      ∀ i j k, inGrid d i j k → (run d (List.replicate m Op.age) st).grid i j k = 0 := by
    induction m with
    | zero => exact ⟨hmin, hz⟩
    | succ m ih =>
      rw [run_replicate_age_succ]
      refine ⟨?_, age_empty d _ ih.1 ih.2⟩
      rw [(age_sameRules d _).1]
      exact ih.1
  refine ⟨hall.2, ?_⟩
  rw [countLive_eq_nonzeroCells, nonzeroCells_eq_zero d _ hall.2]
  rfl

/-- Witness of C17: the initial globals (zero grid, rules 2, 3, 3) and three
`age` calls on the 50 x 50 x 50 grid. -/
theorem empty_grid_fixed_point_witness :
    (run stdDims (List.replicate 3 Op.age) initState).grid 0 0 0 = 0 ∧
      countLive stdDims (run stdDims (List.replicate 3 Op.age) initState).grid = 0 := by
  have h := empty_grid_fixed_point stdDims initState 3 (by decide) (fun _ _ _ _ => rfl)
  exact ⟨h.1 0 0 0 (by decide), h.2⟩

/-! ## `setColor` -/

/-- C18: for every live cell value `c ≥ 1` the quotient `c/255` taken after
capping `c` at 255 is 0 when `c < 255` and 1 when `c ≥ 255`, so the colour
passed to `glColor3f` is exactly (0, 1, 0) for `c < 255` and (1, 0, 0) for
`c ≥ 255`; no other colour occurs. -/
theorem setColor_threshold (c : Int) (hc : 1 ≤ c) :
    (c < 255 → Int.tdiv (if c ≥ 255 then 255 else c) 255 = 0 ∧ setColor c = (0, 1, 0)) ∧
      (255 ≤ c → Int.tdiv (if c ≥ 255 then 255 else c) 255 = 1 ∧ setColor c = (1, 0, 0)) ∧
      (setColor c = (0, 1, 0) ∨ setColor c = (1, 0, 0)) := by
  have hlt : c < 255 → Int.tdiv (if c ≥ 255 then 255 else c) 255 = 0 ∧ setColor c = (0, 1, 0) := by
    intro h
    have hq : Int.tdiv c 255 = 0 := by
      rw [Int.tdiv_eq_ediv (by omega) (by omega)]; omega
    have hnot : ¬(c ≥ 255) := by omega
    refine ⟨by rw [if_neg hnot, hq], ?_⟩
    simp only [setColor, if_neg hnot, hq]
    norm_num
  have hge : 255 ≤ c → Int.tdiv (if c ≥ 255 then 255 else c) 255 = 1 ∧ setColor c = (1, 0, 0) := by
    intro h
    have hq : Int.tdiv 255 255 = 1 := by decide
    refine ⟨by rw [if_pos h, hq], ?_⟩
    simp only [setColor, if_pos (show c ≥ 255 from h), hq]
    norm_num
  refine ⟨hlt, hge, ?_⟩
  rcases lt_or_le c 255 with h | h
  · exact Or.inl (hlt h).2
  · exact Or.inr (hge h).2

/-- Witness of C18: a newborn cell (value 1) is green, a cell of value 256 is
red. -/
theorem setColor_threshold_witness :
    setColor 1 = (0, 1, 0) ∧ setColor 256 = (1, 0, 0) :=
  ⟨((setColor_threshold 1 (by decide)).1 (by decide)).2,
    ((setColor_threshold 256 (by decide)).2.1 (by decide)).2⟩

/-! ## The corner of the grid -/

theorem cornerPositions_eq :
    cornerPositions =
      {(0, 0, 1), (0, 1, 0), (0, 1, 1), (1, 0, 0), (1, 0, 1), (1, 1, 0), (1, 1, 1)} := by
  decide

theorem liveCornerPositions_eq_sum (grid : Grid) :
    (liveCornerPositions grid : Int) =
      (if grid 0 0 1 > 0 then 1 else 0) + (if grid 0 1 0 > 0 then 1 else 0) +
        (if grid 0 1 1 > 0 then 1 else 0) + (if grid 1 0 0 > 0 then 1 else 0) +
        (if grid 1 0 1 > 0 then 1 else 0) + (if grid 1 1 0 > 0 then 1 else 0) +
        (if grid 1 1 1 > 0 then 1 else 0) := by
  unfold liveCornerPositions
  rw [Finset.card_filter, cornerPositions_eq, Finset.sum_insert (by decide),
    Finset.sum_insert (by decide), Finset.sum_insert (by decide), Finset.sum_insert (by decide),
    Finset.sum_insert (by decide), Finset.sum_insert (by decide), Finset.sum_singleton]
  push_cast
  ring

theorem countNeighbors_corner (N : Nat) (hN : 2 ≤ N) (grid : Grid) :
    countNeighbors (cube N) grid 0 0 0 = (liveCornerPositions grid : Int) := by
  have hN2 : (1 : Int) < (N : Int) := by omega
  have hN1 : (0 : Int) < (N : Int) := by omega
  rw [countNeighbors_eq_sum, liveCornerPositions_eq_sum]
  simp [neighborTerm, inGrid, cube, hN1, hN2]
  ring

/-- C13 (no wraparound at a corner): in an N x N x N grid with N at least 3,
`countNeighbors(0, 0, 0)` is the number of live cells among exactly the 7
positions of `{0,1}^3` other than `(0,0,0)`; it is at most 7 and does not change
when cells with a coordinate equal to `N - 1` (the opposite faces) are
modified. -/
theorem corner_no_wrap (N : Nat) (hN : 3 ≤ N) (grid grid2 : Grid)
    (hsame : ∀ i j k : Int, i ≠ (N : Int) - 1 → j ≠ (N : Int) - 1 → k ≠ (N : Int) - 1 →
      grid2 i j k = grid i j k) :
    cornerPositions.card = 7 ∧
      countNeighbors (cube N) grid 0 0 0 = (liveCornerPositions grid : Int) ∧
      countNeighbors (cube N) grid 0 0 0 ≤ 7 ∧
      countNeighbors (cube N) grid2 0 0 0 = countNeighbors (cube N) grid 0 0 0 := by
  have hcard : cornerPositions.card = 7 := by decide
  have hcount := countNeighbors_corner N (by omega) grid
  have hle : liveCornerPositions grid ≤ 7 := by
    rw [← hcard]
    exact Finset.card_le_card (Finset.filter_subset _ _)
  refine ⟨hcard, hcount, by rw [hcount]; exact_mod_cast hle, ?_⟩
  have h0 : (0 : Int) ≠ (N : Int) - 1 := by omega
  have h1 : (1 : Int) ≠ (N : Int) - 1 := by omega
  rw [hcount, countNeighbors_corner N (by omega) grid2, liveCornerPositions_eq_sum,
    liveCornerPositions_eq_sum, hsame 0 0 1 h0 h0 h1, hsame 0 1 0 h0 h1 h0, hsame 0 1 1 h0 h1 h1,
    hsame 1 0 0 h1 h0 h0, hsame 1 0 1 h1 h0 h1, hsame 1 1 0 h1 h1 h0, hsame 1 1 1 h1 h1 h1]

/-- Witness of C13: the all-alive 3 x 3 x 3 grid; the corner has 7 live
neighbours, also after the three opposite faces are cleared. -/
theorem corner_no_wrap_witness :
    countNeighbors (cube 3) allAlive 0 0 0 = 7 ∧
      countNeighbors (cube 3) facesCleared 0 0 0 = countNeighbors (cube 3) allAlive 0 0 0 := by
  have h := corner_no_wrap 3 (le_refl 3) allAlive facesCleared (by
    intro i j k hi hj hk
    have hi2 : ¬(i = 2 ∨ j = 2 ∨ k = 2) := by
      push_cast at hi hj hk
      omega
    simp only [facesCleared, allAlive, if_neg hi2])
  exact ⟨by decide, h.2.2.2⟩

/-! ## The cell-value invariant -/

theorem age_nonneg (d : Dims) (st : State) (h : cellsExact d st.grid) :
    ∀ i j k, inGrid d i j k → 0 ≤ (age d st).grid i j k := by
  intro i j k hc
  obtain ⟨h0, h1⟩ := h i j k hc
  rw [age_grid d st i j k hc, nextValue, cellRule]
  split_ifs
  · omega
  · omega
  · rw [wrapInt32_add_fifteen _ h0 (by omega)]; omega

theorem seed_nonneg (d : Dims) (rnd : Int → Int → Int → ℚ) (density : ℚ) (st : State) :
    ∀ i j k, inGrid d i j k → 0 ≤ (seed d rnd density st).grid i j k :=
  fun i j k hc => (seed_cellsBounded d rnd density st 0 i j k hc).1

/-- C14 as stated fails at long runs: the globals after `main` processed the
arguments `1.0 0 26 3` hold a zero grid, and the grid reached from it by the
calls of `longRun` holds the negative value -2147483640 in the cell
`(0, 0, 0)`. -/
theorem reachable_negative :
    (∀ i j k, fullState.grid i j k = 0) ∧
      (run stdDims longRun fullState).grid 0 0 0 = -2147483640 ∧
      ¬(0 ≤ (run stdDims longRun fullState).grid 0 0 0) := by
  have h := longRun_grid 0 0 0 (by decide)
  refine ⟨fun _ _ _ => rfl, h, ?_⟩
  rw [h]
  decide

/-- C14 amended (cell-value invariant): every cell is non-negative after `seed`;
`age` preserves this within exact integer arithmetic (every cell below
`2^31 - 15`), for every configuration; so every grid reached from a zero grid
by `seed` and `age` calls in which at most 143165576 `age` calls follow the
last `seed` call is non-negative. -/
theorem cells_nonneg (d : Dims) :
    (∀ (rnd : Int → Int → Int → ℚ) (density : ℚ) (st : State) (i j k : Int),
        inGrid d i j k → 0 ≤ (seed d rnd density st).grid i j k) ∧
      (∀ st : State, cellsExact d st.grid →
        ∀ i j k, inGrid d i j k → 0 ≤ (age d st).grid i j k) ∧
      (∀ (ops : List Op) (st : State), (∀ i j k, inGrid d i j k → st.grid i j k = 0) →
        agesSinceSeed ops ≤ 143165576 →
        ∀ i j k, inGrid d i j k → 0 ≤ (run d ops st).grid i j k) := by
  refine ⟨seed_nonneg d, age_nonneg d, fun ops st hz hb i j k hc => ?_⟩
  have h0 : cellsBounded d st.grid 0 := fun i j k hc => by rw [hz i j k hc]; simp
  exact (run_cellsBounded d ops st 0 (fun _ => h0) hb i j k hc).1

/-- Witness of C14 amended: after `main` processed the arguments `1.0 0 26 3`,
the calls of `resumedRun` on the 50 x 50 x 50 grid, two `age` calls after the
last `seed`; the live cell `(0, 0, 0)` holds 1 + 15 + 15 = 31. -/
theorem cells_nonneg_witness :
    agesSinceSeed resumedRun ≤ 143165576 ∧
      (run stdDims resumedRun fullState).grid 0 0 0 = 31 ∧
      0 ≤ (run stdDims resumedRun fullState).grid 0 0 0 := by
  have hb : agesSinceSeed resumedRun ≤ 143165576 := by
    rw [agesSinceSeed_resumedRun]; decide
  exact ⟨hb, resumedRun_grid 0 0 0 (by decide),
    (cells_nonneg stdDims).2.2 resumedRun fullState (fun _ _ _ _ => rfl) hb 0 0 0 (by decide)⟩

/-! ## Magnitude of cell values -/

theorem neighborTerm_congr (d : Dims) (g1 g2 : Grid) (hpat : samePattern d g1 g2)
    (l w h i j k : Int) :
    neighborTerm d g1 l w h i j k = neighborTerm d g2 l w h i j k := by
  unfold neighborTerm
  by_cases hc : inGrid d i j k
  · have hp := hpat i j k hc
    simp only [hc, hp, true_and]
  · simp only [hc, false_and, if_false]

theorem countNeighbors_congr (d : Dims) (g1 g2 : Grid) (hpat : samePattern d g1 g2)
    (l w h : Int) : countNeighbors d g1 l w h = countNeighbors d g2 l w h := by
  rw [countNeighbors_eq_sum, countNeighbors_eq_sum]
  simp only [neighborTerm_congr d g1 g2 hpat]

/-- C15 as stated fails for old cells: `agedState` and `cornerState` are
non-negative grids with the same live/dead pattern and the same rules, but
after `age` the cell `(0, 0, 0)` is alive in one and not in the other, because
2147483641 + 15 leaves the 32-bit range. -/
theorem magnitude_overflow :
    (∀ i j k, 0 ≤ agedState.grid i j k) ∧ (∀ i j k, 0 ≤ cornerState.grid i j k) ∧
      samePattern stdDims agedState.grid cornerState.grid ∧ sameRules agedState cornerState ∧
      (age stdDims cornerState).grid 0 0 0 > 0 ∧ ¬((age stdDims agedState).grid 0 0 0 > 0) := by
  have hg : ∀ i j k, (i = 0 ∧ j = 0 ∧ k = 0 → agedState.grid i j k = 2147483641 ∧
      cornerState.grid i j k = 1) ∧
      (¬(i = 0 ∧ j = 0 ∧ k = 0) → agedState.grid i j k = cornerState.grid i j k ∧
        0 ≤ cornerState.grid i j k) := by
    intro i j k
    constructor
    · rintro ⟨rfl, rfl, rfl⟩
      exact ⟨by decide, by decide⟩
    · intro hne
      simp only [agedState, cornerState, initState, gridOf, if_neg hne, List.mem_cons,
        Prod.mk.injEq, List.mem_singleton, List.not_mem_nil, or_false]
      simp only [hne, false_or]
      constructor
      · trivial
      · split_ifs <;> decide
  refine ⟨fun i j k => ?_, fun i j k => ?_, fun i j k _ => ?_, ⟨rfl, rfl, rfl, rfl⟩, ?_, ?_⟩
  · by_cases h : i = 0 ∧ j = 0 ∧ k = 0
    · rw [((hg i j k).1 h).1]; decide
    · rw [((hg i j k).2 h).1]; exact ((hg i j k).2 h).2
  · by_cases h : i = 0 ∧ j = 0 ∧ k = 0
    · rw [((hg i j k).1 h).2]; decide
    · exact ((hg i j k).2 h).2
  · by_cases h : i = 0 ∧ j = 0 ∧ k = 0
    · rw [((hg i j k).1 h).1, ((hg i j k).1 h).2]; decide
    · rw [((hg i j k).2 h).1]
  · rw [age_grid stdDims cornerState 0 0 0 (by decide)]
    decide
  · rw [age_grid stdDims agedState 0 0 0 (by decide)]
    decide

/-- C15 amended (magnitude irrelevance): for every configuration and any two
grids whose cells all lie in `[0, 2^31 - 15)` and that have the same live/dead
pattern, the grids after `age` have the same live/dead pattern. -/
theorem age_magnitude_irrelevant (d : Dims) (s1 s2 : State) (hrules : sameRules s1 s2)
    (h1 : cellsExact d s1.grid) (h2 : cellsExact d s2.grid)
    (hpat : samePattern d s1.grid s2.grid) :
    samePattern d (age d s1).grid (age d s2).grid := by
  intro i j k hc
  obtain ⟨r1, r2, r3, -⟩ := hrules
  obtain ⟨a0, a1⟩ := h1 i j k hc
  obtain ⟨b0, b1⟩ := h2 i j k hc
  have hp := hpat i j k hc
  have hz : s1.grid i j k = 0 ↔ s2.grid i j k = 0 := by omega
  rw [age_grid d s1 i j k hc, age_grid d s2 i j k hc, nextValue, nextValue, cellRule, cellRule,
    countNeighbors_congr d s1.grid s2.grid hpat, r1, r2, r3]
  simp only [hz]
  split_ifs
  · rfl
  · rfl
  · rw [wrapInt32_add_fifteen _ a0 (by omega), wrapInt32_add_fifteen _ b0 (by omega)]
    constructor <;> intro _ <;> omega

/-- Witness of C15 amended: the corner grid with live values 1 and the same
pattern with live values 16. -/
theorem age_magnitude_irrelevant_witness :
    samePattern stdDims (age stdDims cornerState).grid (age stdDims olderState).grid := by
  have hval : ∀ i j k, olderState.grid i j k = 16 * cornerState.grid i j k := fun _ _ _ => rfl
  have hc : ∀ i j k, cornerState.grid i j k = 0 ∨ cornerState.grid i j k = 1 := by
    intro i j k
    simp only [cornerState, gridOf]
    split_ifs
    · exact Or.inr rfl
    · exact Or.inl rfl
  exact age_magnitude_irrelevant stdDims cornerState olderState ⟨rfl, rfl, rfl, rfl⟩
    (fun i j k _ => by rcases hc i j k with h | h <;> rw [h] <;> decide)
    (fun i j k _ => by rw [hval]; rcases hc i j k with h | h <;> rw [h] <;> decide)
    (fun i j k _ => by rw [hval]; omega)

/-! ## Index safety -/

theorem foldlM_eq_some_foldl {α σ : Type} (f : σ → α → Option σ) (g : σ → α → σ)
    (xs : List α) : ∀ s : σ, (∀ x ∈ xs, ∀ s, f s x = some (g s x)) →
      xs.foldlM f s = some (xs.foldl g s) := by
  induction xs with
  | nil => intro s _; rfl
  | cons x xs ih =>
    intro s h
    rw [List.foldlM_cons, h x (List.mem_cons_self x xs) s, List.foldl_cons]
    exact ih (g s x) (fun y hy s => h y (List.mem_cons_of_mem x hy) s)

theorem mem_forRange (lo hi x : Int) (hx : x ∈ forRange lo hi) : lo ≤ x ∧ x < hi := by
  unfold forRange at hx
  rw [List.mem_map] at hx
  obtain ⟨n, hn, rfl⟩ := hx
  rw [List.mem_range] at hn
  omega

theorem forCellsM_eq_some {σ : Type} (d : Dims) (bodyM : σ → Int → Int → Int → Option σ)
    (body : σ → Int → Int → Int → σ)
    (h : ∀ s i j k, inGrid d i j k → bodyM s i j k = some (body s i j k)) (s : σ) :
    forCellsM d bodyM s = some (forCells d body s) := by
  unfold forCellsM forCells
  refine foldlM_eq_some_foldl _ _ _ s (fun i hi s => ?_)
  refine foldlM_eq_some_foldl _ _ _ s (fun j hj s => ?_)
  refine foldlM_eq_some_foldl _ _ _ s (fun k hk s => ?_)
  have h1 := mem_forRange _ _ _ hi
  have h2 := mem_forRange _ _ _ hj
  have h3 := mem_forRange _ _ _ hk
  exact h s i j k ⟨h1.1, h1.2, h2.1, h2.2, h3.1, h3.2⟩

theorem readCell_inGrid (d : Dims) (g : Grid) (i j k : Int) (hc : inGrid d i j k) :
    readCell d g i j k = some (g i j k) := if_pos hc

theorem writeCell_inGrid (d : Dims) (g : Grid) (i j k v : Int) (hc : inGrid d i j k) :
    writeCell d g i j k v = some (g.set i j k v) := if_pos hc

theorem countNeighborsChecked_eq (d : Dims) (grid : Grid) (l w h : Int) :
    countNeighborsChecked d grid l w h = some (countNeighbors d grid l w h) := by
  unfold countNeighborsChecked countNeighbors
  refine foldlM_eq_some_foldl _ _ _ 0 (fun i _ c => ?_)
  refine foldlM_eq_some_foldl _ _ _ c (fun j _ c => ?_)
  refine foldlM_eq_some_foldl _ _ _ c (fun k _ c => ?_)
  by_cases hout : i < 0 ∨ i ≥ d.LENGTH ∨ j < 0 ∨ j ≥ d.WIDTH ∨ k < 0 ∨ k ≥ d.HEIGHT
  · rw [if_pos hout, if_pos hout]
  · have hc : inGrid d i j k := by unfold inGrid; omega
    rw [if_neg hout, if_neg hout, readCell_inGrid d grid i j k hc, Option.some_bind]
    by_cases hself : i = l ∧ j = w ∧ k = h
    · rw [if_pos hself, if_pos hself]
    · rw [if_neg hself, if_neg hself]
      by_cases hv : grid i j k > 0
      · rw [if_pos hv, if_pos hv]
      · rw [if_neg hv, if_neg hv]

theorem ageCellChecked_eq (d : Dims) (st : State) (i j k : Int) (hc : inGrid d i j k) :
    ageCellChecked d st i j k = some (ageCell d st i j k) := by
  simp only [ageCellChecked, ageCell, countNeighborsChecked_eq, readCell_inGrid d _ i j k hc,
    writeCell_inGrid d _ i j k _ hc, Option.some_bind, Option.map_some']
  by_cases h1 : countNeighbors d st.grid i j k < st.minNeighbors ∨
      countNeighbors d st.grid i j k > st.maxNeighbors
  · simp only [if_pos h1]
  · simp only [if_neg h1]
    by_cases h2 : countNeighbors d st.grid i j k = st.alive
    · by_cases h3 : st.grid i j k = 0
      · simp [h2, h3]
      · simp [h2, h3]
    · simp [h2]

theorem copyCellChecked_eq (d : Dims) (st : State) (i j k : Int) (hc : inGrid d i j k) :
    copyCellChecked d st i j k = some (copyCell st i j k) := by
  simp only [copyCellChecked, copyCell, readCell_inGrid d _ i j k hc,
    writeCell_inGrid d _ i j k _ hc, Option.some_bind, Option.map_some']

theorem ageChecked_eq (d : Dims) (st : State) : ageChecked d st = some (age d st) := by
  unfold ageChecked age
  rw [forCellsM_eq_some d (ageCellChecked d) (ageCell d) (fun s i j k hc =>
      ageCellChecked_eq d s i j k hc), Option.some_bind,
    forCellsM_eq_some d (copyCellChecked d) copyCell (fun s i j k hc =>
      copyCellChecked_eq d s i j k hc)]

/-- C16 (totality and index safety): for every grid and every configuration,
also with `minNeighbors > maxNeighbors`, and for any integer coordinates
`l, w, h`, the checked versions of `countNeighbors` and `age` never take the
out-of-range branch: they return the results of `countNeighbors` and `age`,
which are total functions. -/
theorem age_index_safe (d : Dims) (st : State) (l w h : Int) :
    countNeighborsChecked d st.grid l w h = some (countNeighbors d st.grid l w h) ∧
      ageChecked d st = some (age d st) :=
  ⟨countNeighborsChecked_eq d st.grid l w h, ageChecked_eq d st⟩

/-- Witness of C16: rules with `minNeighbors` 5 above `maxNeighbors` 2, and
coordinates outside the grid, where an unguarded read would fail. -/
theorem age_index_safe_witness :
    crossedState.minNeighbors > crossedState.maxNeighbors ∧
      readCell cube2 crossedState.grid (-1) 2 2 = none ∧
      countNeighborsChecked cube2 crossedState.grid (-1) 2 2 = some 1 ∧
      (ageChecked cube2 crossedState).isSome = true := by
  have h := age_index_safe cube2 crossedState (-1) 2 2
  refine ⟨by decide, by decide, ?_, ?_⟩
  · rw [h.1]; decide
  · rw [h.2]; rfl

end ConwayLife
